import Mathlib

/- Verification development for the chordprobook song-book compiler.
   The definitions below are a shallow embedding of the Python sources
   src/chordprobook.py and src/chordprobook/books/__init__.py: pure string
   and list manipulation is translated to Lean functions, statements that
   can raise Python exceptions return `Except PyErr`, and object mutation
   becomes explicit state passing.  Machine integers are `Int`/`Nat`
   (Python integers are unbounded, so no wrap-around modelling is needed).
   Theorems checking the specification claims follow the definitions. -/

/- ===================== DEFINITIONS ===================== -/

/- Python runtime errors that the embedded code can raise. -/
inductive PyErr where
  | nameError
  | attributeError
  | valueError
  deriving DecidableEq, Repr

/- Python str.strip / str.split / re \s whitespace set: space, tab,
   newline, carriage return, vertical tab, form feed. -/
def isPySpace (c : Char) : Bool :=
  c == ' ' || c == '\t' || c == '\n' || c == '\r' || c == '\x0b' || c == '\x0c'

/- Python str.strip() on a list of characters. -/
def stripL (l : List Char) : List Char :=
  ((l.dropWhile isPySpace).reverse.dropWhile isPySpace).reverse

/- Python str.strip() on strings. -/
def pyStrip (s : String) : String := ⟨stripL s.data⟩

/- Python str.lower() (the sources only use it on ASCII text). -/
def pyLower (s : String) : String := ⟨s.data.map Char.toLower⟩

/- Python str.split("\x5cn"): split at every newline, keeping empty parts. -/
def splitNL : List Char → List (List Char)
  | [] => [[]]
  | '\n' :: rest => [] :: splitNL rest
  | c :: rest =>
    match splitNL rest with
    | [] => [[c]]
    | l :: ls => (c :: l) :: ls

/- Lines of a Python string, as produced by text.split("\x5cn"). -/
def pyLines (s : String) : List String := (splitNL s.data).map String.mk

/- ----- transposer (src/chordprobook.py, lines 11-32) ----- -/

/- The fixed lookup table `transposer.__note_indicies`. -/
def noteIndices : List (String × Int) :=
  [("C", 0), ("C#", 1), ("Db", 1), ("D", 2), ("Eb", 3), ("D#", 3),
   ("E", 4), ("F", 5), ("F#", 6), ("Gb", 6), ("G", 7), ("Ab", 8),
   ("G#", 8), ("A", 9), ("Bb", 10), ("A#", 10), ("B", 11)]

/- The canonical spelling table `transposer.__notes`. -/
def notesTable : List String :=
  ["C", "C#", "D", "Eb", "E", "F", "F#", "G", "Ab", "A", "Bb", "B"]

/- Association lookup: Python dict indexing for the small fixed
   string-keyed tables of the sources. -/
def assocFind {α : Type} : List (String × α) → String → Option α
  | [], _ => none
  | (k, v) :: rest, s => if k = s then some v else assocFind rest s

/- Short name for lookups in the note table. -/
def tableFind (t : List (String × Int)) (s : String) : Option Int := assocFind t s

/- `transposer.__getNoteIndex` (line 25-26):
   `return self.__note_indicies[note] if note in self.__note_indicies else none`.
   The bare name `none` is undefined in the Python source, so evaluating the
   else branch raises `NameError` at runtime; the embedding returns an error
   value in that case. -/
def getNoteIndex (note : String) : Except PyErr Int :=
  match tableFind noteIndices note with
  | some i => Except.ok i
  | none => Except.error PyErr.nameError

/- Decidable equality of error-carrying results, for concrete evaluation. -/
deriving instance DecidableEq for Except

/- `transposer.transpose_note` (lines 29-32).  On the success path the
   guard `note_index != None` of line 32 is always true, because
   `__getNoteIndex` never returns `None` (its else branch raises instead),
   so the embedded function indexes the canonical table directly.  The
   index `(note_index + offset) % 12` is in `[0, 12)` (Python `%` with a
   positive modulus is non-negative, as is `Int.emod`), so `getD` never
   falls back to its default. -/
def transpose_note (offset : Int) (note : String) : Except PyErr String :=
  match getNoteIndex note with
  | Except.error e => Except.error e
  | Except.ok noteIndex =>
    Except.ok (notesTable.getD ((noteIndex + offset) % 12).toNat "")

/- Root-note letters, the character class [A-G] of the scan regex. -/
def isRootLetter (c : Char) : Bool := 'A' ≤ c && c ≤ 'G'

/- Accidental characters, the group (\x5c#|b)? of the scan regex. -/
def isAccidental (c : Char) : Bool := c == '#' || c == 'b'

/- The left-to-right non-overlapping scan performed by
   `re.sub("([A-G](\x5c#|b)?)", ..., chord_string)` in
   `transposer.transpose_chord` (lines 22-23): at each position, a letter
   A-G optionally followed by # or b is a token and is replaced by
   `transpose_note`; every other character is copied unchanged. -/
def transposeScan (offset : Int) : List Char → Except PyErr (List Char)
  | [] => Except.ok []
  | [c] =>
    if isRootLetter c then
      match transpose_note offset ⟨[c]⟩ with
      | Except.ok t => Except.ok t.data
      | Except.error e => Except.error e
    else Except.ok [c]
  | c :: c2 :: rest =>
    if isRootLetter c then
      if isAccidental c2 then
        match transpose_note offset ⟨[c, c2]⟩, transposeScan offset rest with
        | Except.error e, _ => Except.error e
        | Except.ok _, Except.error e => Except.error e
        | Except.ok t, Except.ok r => Except.ok (t.data ++ r)
      else
        match transpose_note offset ⟨[c]⟩, transposeScan offset (c2 :: rest) with
        | Except.error e, _ => Except.error e
        | Except.ok _, Except.error e => Except.error e
        | Except.ok t, Except.ok r => Except.ok (t.data ++ r)
    else
      match transposeScan offset (c2 :: rest) with
      | Except.ok r => Except.ok (c :: r)
      | Except.error e => Except.error e

/- `transposer.transpose_chord` (lines 22-23). -/
def transpose_chord (offset : Int) (s : String) : Except PyErr String :=
  match transposeScan offset s.data with
  | Except.ok r => Except.ok ⟨r⟩
  | Except.error e => Except.error e

/- ----- directive classifier (books/__init__.py, lines 106-159) ----- -/

/- The closed enumeration of directive types (`directive` class attributes,
   line 108). -/
inductive DirType where
  | title
  | subtitle
  | artist
  | composer
  | lyricist
  | time
  | tempo
  | key
  | start_chorus
  | end_chorus
  | start_tab
  | end_tab
  | start_bridge
  | end_bridge
  | transpose
  | new_page
  | define
  | grids
  | comment
  | instrument
  | tuning
  | dirs
  | files
  | version
  | page_image
  deriving DecidableEq, Repr

/- The alias table `directive.directives` (lines 109-147). -/
def directives : List (String × DirType) :=
  [("t", DirType.title), ("title", DirType.title),
   ("st", DirType.subtitle), ("subtitle", DirType.subtitle),
   ("artist", DirType.artist), ("composer", DirType.composer),
   ("lyricist", DirType.lyricist), ("time", DirType.time),
   ("tempo", DirType.tempo), ("key", DirType.key),
   ("start_of_chorus", DirType.start_chorus), ("soc", DirType.start_chorus),
   ("end_of_chorus", DirType.end_chorus), ("eoc", DirType.end_chorus),
   ("start_of_tab", DirType.start_tab), ("sot", DirType.start_tab),
   ("end_of_tab", DirType.end_tab), ("eot", DirType.end_tab),
   ("start_of_bridge", DirType.start_bridge), ("sob", DirType.start_bridge),
   ("end_of_bridge", DirType.end_bridge), ("eob", DirType.end_bridge),
   ("transpose", DirType.transpose), ("tr", DirType.transpose),
   ("new_page", DirType.new_page), ("np", DirType.new_page),
   ("define", DirType.define), ("grids", DirType.grids),
   ("comment", DirType.comment), ("c", DirType.comment),
   ("instrument", DirType.instrument), ("tuning", DirType.tuning),
   ("dirs", DirType.dirs), ("files", DirType.files),
   ("version", DirType.version), ("page_image", DirType.page_image),
   ("pi", DirType.page_image)]

/- Python str.partition(":") on the character list between the braces:
   splits at the first colon; when there is no colon the tail is empty
   (Python returns ("", "") for the separator and tail there, and the code
   uses only the head and the tail). -/
def partitionColon : List Char → List Char × List Char
  | [] => ([], [])
  | c :: rest =>
    if c = ':' then ([], rest)
    else
      let p := partitionColon rest
      (c :: p.1, p.2)

/- Python str.startswith. -/
def pyStartsWith (s pre : String) : Bool := pre.data.isPrefixOf s.data

/- Python str.endswith. -/
def pyEndsWith (s suf : String) : Bool := suf.data.reverse.isPrefixOf s.data.reverse

/- A classified directive: `self.type` is None for non-directives.  In the
   source `self.value` is only ever read when `self.type` is not None; the
   embedding stores "" in the cases where the attribute would be unset. -/
structure Directive where
  type : Option DirType
  value : String
  deriving DecidableEq, Repr

/- Python line[1:-1]: the text between the braces. -/
def dirInner (l : List Char) : List Char := (l.drop 1).dropLast

/- `directive.__init__` (lines 150-159): strip the line; if it starts with
   a left brace and ends with a right brace, split the inside at the first
   colon, lower-case the name and look it up in the alias table; on success
   record the type and the stripped value, otherwise the type stays None. -/
def mkDirective (line : String) : Directive :=
  if pyStartsWith (pyStrip line) "\x7b" && pyEndsWith (pyStrip line) "\x7d" then
    match assocFind directives
        (pyLower ⟨(partitionColon (dirInner (pyStrip line).data)).1⟩) with
    | some t =>
      { type := some t,
        value := pyStrip ⟨(partitionColon (dirInner (pyStrip line).data)).2⟩ }
    | none =>
      { type := none,
        value := ⟨(partitionColon (dirInner (pyStrip line).data)).2⟩ }
  else { type := none, value := "" }

/- ----- further Python string helpers ----- -/

/- Python str.split(sep) for a one-character separator: split at every
   occurrence, keeping empty parts. -/
def splitSepL (sep : Char) : List Char → List (List Char)
  | [] => [[]]
  | c :: rest =>
    if c = sep then [] :: splitSepL sep rest
    else
      match splitSepL sep rest with
      | [] => [[c]]
      | l :: ls => (c :: l) :: ls

/- Python str.replace(needle, repl): non-overlapping left-to-right
   replacement.  The fuel argument (the remaining length) makes the
   recursion structural; every step consumes at least one character, so
   starting with the full length never exhausts the fuel. -/
def replaceLAux (needle repl : List Char) : Nat → List Char → List Char
  | _, [] => []
  | 0, hay => hay
  | fuel + 1, c :: rest =>
    if needle ≠ [] ∧ needle.isPrefixOf (c :: rest) then
      repl ++ replaceLAux needle repl fuel (List.drop (needle.length - 1) rest)
    else c :: replaceLAux needle repl fuel rest

def replaceL (needle repl hay : List Char) : List Char :=
  replaceLAux needle repl hay.length hay

def pyReplace (s needle repl : String) : String :=
  ⟨replaceL needle.data repl.data s.data⟩

/- re.sub("\x5cs+", " ", line): collapse every run of whitespace to one
   space. -/
def collapseWSAux : Bool → List Char → List Char
  | _, [] => []
  | inWS, c :: rest =>
    if isPySpace c then
      if inWS then collapseWSAux true rest
      else ' ' :: collapseWSAux true rest
    else c :: collapseWSAux false rest

def collapseWS (l : List Char) : List Char := collapseWSAux false l

/- Python int(string): strip whitespace, optional sign, one or more
   decimal digits; anything else raises ValueError.  (Underscore digit
   separators are not modelled; the sources never use them.) -/
def isDigitCh (c : Char) : Bool := '0' ≤ c && c ≤ '9'

def digitsToNat : Nat → List Char → Option Nat
  | acc, [] => some acc
  | acc, c :: rest =>
    if isDigitCh c then digitsToNat (acc * 10 + (c.toNat - '0'.toNat)) rest
    else none

def pyInt (s : String) : Except PyErr Int :=
  match stripL s.data with
  | '+' :: rest =>
    match rest, digitsToNat 0 rest with
    | _ :: _, some n => Except.ok (n : Int)
    | _, _ => Except.error PyErr.valueError
  | '-' :: rest =>
    match rest, digitsToNat 0 rest with
    | _ :: _, some n => Except.ok (-(n : Int))
    | _, _ => Except.error PyErr.valueError
  | l =>
    match l, digitsToNat 0 l with
    | _ :: _, some n => Except.ok (n : Int)
    | _, _ => Except.error PyErr.valueError

/- Python [int(x) for x in parts]: left to right, first failure raises. -/
def pyIntList : List String → Except PyErr (List Int)
  | [] => Except.ok []
  | s :: rest =>
    match pyInt s, pyIntList rest with
    | Except.error e, _ => Except.error e
    | Except.ok _, Except.error e => Except.error e
    | Except.ok i, Except.ok l => Except.ok (i :: l)

/- ----- spec-modelled transposer of the chords module ----- -/

/-- Modelled from the spec: the module `chordprobook.chords` (used by
books/__init__.py as `chords.transposer`) is not under src/.  Spec section
4.1 describes it: map a letter+accidental to its pitch class via the fixed
table, add the offset mod 12, return the canonical spelling for the
resulting class; unknown input is returned unchanged, never an error.  The
tables are those of the in-src transposer of src/chordprobook.py. -/
def specTransposeNote (offset : Int) (note : String) : String :=
  match tableFind noteIndices note with
  | some i => notesTable.getD ((i + offset) % 12).toNat ""
  | none => note

/-- Modelled from the spec: total root-token scan of the chords-module
transposer, mirroring `transpose_chord` of spec section 4.1 (replace
every root-note token, leave everything else unchanged, never an
error). -/
def specTransposeScan (offset : Int) : List Char → List Char
  | [] => []
  | [c] =>
    if isRootLetter c then (specTransposeNote offset ⟨[c]⟩).data
    else [c]
  | c :: c2 :: rest =>
    if isRootLetter c then
      if isAccidental c2 then
        (specTransposeNote offset ⟨[c, c2]⟩).data ++ specTransposeScan offset rest
      else
        (specTransposeNote offset ⟨[c]⟩).data ++ specTransposeScan offset (c2 :: rest)
    else c :: specTransposeScan offset (c2 :: rest)

def specTransposeChord (offset : Int) (s : String) : String :=
  ⟨specTransposeScan offset s.data⟩

/- Python truthiness of an optional string attribute: None and the empty
   string are falsy (`if self.original_key:`). -/
def truthyStr : Option String → Bool
  | none => false
  | some s => s != ""

/- ----- content-line markup passes of cp_song.parse ----- -/

/- Python \x5cw word characters (ASCII part; the sources only rely on
   ASCII here). -/
def isWordChar (c : Char) : Bool :=
  ('a' ≤ c && c ≤ 'z') || ('A' ≤ c && c ≤ 'Z') || ('0' ≤ c && c ≤ '9') || c == '_'

/- Split a character list at the first occurrence of the given character,
   returning the parts before and after it. -/
def splitAtCh (sep : Char) : List Char → Option (List Char × List Char)
  | [] => none
  | c :: rest =>
    if c = sep then some ([], rest)
    else
      match splitAtCh sep rest with
      | none => none
      | some (a, b) => some (c :: a, b)

/- First pass of `normalize_chord_markup` (books/__init__.py line 164):
   re.sub("(\x5cw)(\x5c[[^\x5c]]*?\x5c])( |$)", "\x5c1 \x5c2\x5c3"): insert a space
   between a word character and an immediately following bracket group that
   is followed by a space or the end of the line.  Fueled left-to-right
   non-overlapping scan. -/
def normSub1Aux : Nat → List Char → List Char
  | 0, hay => hay
  | _ + 1, [] => []
  | fuel + 1, c :: rest =>
    if isWordChar c then
      match rest with
      | '[' :: r2 =>
        match splitAtCh ']' r2 with
        | some (inner, r3) =>
          match r3 with
          | ' ' :: r4 =>
            c :: ' ' :: '[' :: (inner ++ ']' :: ' ' :: normSub1Aux fuel r4)
          | [] => c :: ' ' :: '[' :: (inner ++ [']'])
          | _ => c :: normSub1Aux fuel rest
        | none => c :: normSub1Aux fuel rest
      | _ => c :: normSub1Aux fuel rest
    else c :: normSub1Aux fuel rest

/- Second pass of `normalize_chord_markup` (line 165):
   re.sub("(^| )(\x5c[[^\x5c]]*?\x5c])(\x5cw)", "\x5c1\x5c2 \x5c3"): insert a space
   between a bracket group preceded by start-of-line or a space and an
   immediately following word character. -/
def normSub2Go : Nat → List Char → List Char
  | 0, hay => hay
  | _ + 1, [] => []
  | fuel + 1, c :: rest =>
    if c = ' ' then
      match rest with
      | '[' :: r2 =>
        match splitAtCh ']' r2 with
        | some (inner, w :: r3) =>
          if isWordChar w then
            ' ' :: '[' :: (inner ++ ']' :: ' ' :: w :: normSub2Go fuel r3)
          else ' ' :: normSub2Go fuel rest
        | _ => ' ' :: normSub2Go fuel rest
      | _ => ' ' :: normSub2Go fuel rest
    else c :: normSub2Go fuel rest

def normSub2 (l : List Char) : List Char :=
  match l with
  | '[' :: r2 =>
    match splitAtCh ']' r2 with
    | some (inner, w :: r3) =>
      if isWordChar w then '[' :: (inner ++ ']' :: ' ' :: w :: normSub2Go r3.length r3)
      else normSub2Go l.length l
    | _ => normSub2Go l.length l
  | _ => normSub2Go l.length l

/- `normalize_chord_markup` (books/__init__.py lines 162-166). -/
def normalize_chord_markup (line : List Char) : List Char :=
  normSub2 (normSub1Aux line.length line)

/- Chord highlighting in parse (line 234):
   re.sub('\x5c[(.*?)\x5c]', '<span class="chord-bracket">[\x5c1]</span>', line). -/
def chordSpanSub : Nat → List Char → List Char
  | 0, hay => hay
  | _ + 1, [] => []
  | fuel + 1, '[' :: rest =>
    match splitAtCh ']' rest with
    | some (inner, r2) =>
      "<span class=\"chord-bracket\">[".data ++ inner ++ "]</span>".data ++
        chordSpanSub fuel r2
    | none => '[' :: chordSpanSub fuel rest
  | fuel + 1, c :: rest => c :: chordSpanSub fuel rest

/- Styled-span micro markup for lines starting with "." (line 236):
   re.sub("^\x5c.(.*?) (.*)", "<span class=\x27\x5c1\x27>\x5c1 \x5c2</span>", line). -/
def dotSpanSub (l : List Char) : List Char :=
  match l with
  | '.' :: rest =>
    match splitAtCh ' ' rest with
    | some (cls, rest2) =>
      "<span class=\x27".data ++ cls ++ "\x27>".data ++ cls ++
        ' ' :: (rest2 ++ "</span>".data)
    | none => l
  | _ => l

/- Mid-stanza line-break pass (line 340):
   re.sub("(.)\x5cn(.)", "\x5c1    \x5cn\x5c2", text): four spaces before every
   newline that is surrounded by non-newline characters; the scan is
   non-overlapping and continues after the second group. -/
def midStanza : List Char → List Char
  | [] => []
  | a :: '\n' :: b :: rest2 =>
    if a != '\n' && b != '\n' then
      a :: ' ' :: ' ' :: ' ' :: ' ' :: '\n' :: b :: midStanza rest2
    else a :: midStanza ('\n' :: b :: rest2)
  | a :: rest => a :: midStanza rest

/- ----- cp_song (books/__init__.py, lines 169-341) ----- -/

/- The song record: the fields of `cp_song` that the embedded operations
   read or write.  `transposerOffset` is the offset stored in the
   `self.transposer` object (it can differ from `transpose` because
   `format` updates `self.transpose` without rebuilding the transposer,
   while `get_key_string` rebuilds it).  `grids`/`local_grids` record
   whether a chord chart is loaded (the chart itself lives in the missing
   chordprobook.chords module).  The constructor arguments `instruments`,
   `nashville`, `major_chart` and `lefty` keep their default values
   (None/False) everywhere in the claims, so those fields are omitted and
   the corresponding code paths are the default ones. -/
structure Song where
  blank : Bool
  instrument_name : Option String
  local_instrument_names : List String
  text : String
  key : Option String
  pages : Nat
  original_key : Option String
  dir : String
  notes_md : String
  transpose : Int
  transposerOffset : Int
  standard_transpositions : List Int
  title : String
  grids : Bool
  local_grids : Bool
  chords_used : List String
  md : String
  formatted_title : String
  deriving DecidableEq, Repr

/- Parser state: the loop-local variables of `cp_song.parse`. -/
structure ParseSt where
  in_tab : Bool
  in_block : Bool
  cur_inst : Option String
  new_text : List Char
  deriving DecidableEq, Repr

/- One iteration of the parse loop (lines 222-336), dispatching on the
   classified directive exactly as the if/elif chain does.  The
   instrument-registry effects of the `instrument` and `define` branches
   live in the missing chordprobook.instruments module; following spec
   section 4.3 the `instrument` branch switches the current-instrument
   context (and records the name, line 323), and `define` registers a
   grid with that instrument, which has no observable effect on the song
   record. -/
def parseLine (s : Song) (st : ParseSt) (line : List Char) :
    Except PyErr (Song × ParseSt) :=
  match (mkDirective ⟨line⟩).type with
  | none =>
    if ('#' :: []).isPrefixOf line then Except.ok (s, st)
    else
      let l1 := normalize_chord_markup line
      let l2 :=
        if st.in_tab then l1
        else
          let la := stripL (replaceL "][".data "] [".data l1)
          let lb := chordSpanSub la.length la
          if ('.' :: []).isPrefixOf lb then dotSpanSub lb else lb
      Except.ok (s, { st with new_text := st.new_text ++ l2 ++ ['\n'] })
  | some DirType.comment =>
    let v := (mkDirective ⟨line⟩).value
    let closing := if st.in_block then "</div>".data else []
    if ('.' :: []).isPrefixOf v.data then
      let v2 : String := ⟨v.data.drop 1⟩
      let classs : List Char := (splitSepL ' ' v2.data).headD []
      if classs ≠ [] then
        Except.ok (s, { st with
          in_block := true,
          new_text := st.new_text ++ closing ++
            "<div class=\x27".data ++ classs ++ "\x27>".data ++
            "\n**".data ++ v2.data ++ "**\n".data })
      else
        Except.ok (s, { st with
          in_block := false,
          new_text := st.new_text ++ closing ++ "\n**".data ++ v2.data ++ "**\n".data })
    else
      Except.ok (s, { st with
        in_block := false,
        new_text := st.new_text ++ closing ++ "\n**".data ++ v.data ++ "**\n".data })
  | some DirType.title =>
    Except.ok ({ s with title := s.title ++ (mkDirective ⟨line⟩).value }, st)
  | some DirType.subtitle =>
    Except.ok (s, { st with
      new_text := st.new_text ++ "\n**".data ++ (mkDirective ⟨line⟩).value.data ++ "**\n".data })
  | some DirType.artist =>
    Except.ok (s, { st with
      new_text := st.new_text ++
        "<div class=\"meta artist\"><span class=\"key\">Artist:</span> <span class=\"value\">".data ++
        (mkDirective ⟨line⟩).value.data ++ "</span></div>".data })
  | some DirType.composer =>
    Except.ok (s, { st with
      new_text := st.new_text ++
        "<div class=\"meta composer\"><span class=\"key\">Composer:</span> <span class=\"value\">".data ++
        (mkDirective ⟨line⟩).value.data ++ "</span></div>".data })
  | some DirType.lyricist =>
    Except.ok (s, { st with
      new_text := st.new_text ++
        "<div class=\"meta lyricist\"><span class=\"key\">Lyricist:</span> <span class=\"value\">".data ++
        (mkDirective ⟨line⟩).value.data ++ "</span></div>".data })
  | some DirType.time =>
    Except.ok (s, { st with
      new_text := st.new_text ++
        "<div class=\"meta time\"><span class=\"key\">Time:</span> <span class=\"value\">".data ++
        (mkDirective ⟨line⟩).value.data ++ "</span></div>".data })
  | some DirType.tempo =>
    Except.ok (s, { st with
      new_text := st.new_text ++
        "<div class=\"meta tempo\"><span class=\"key\">Tempo:</span> <span class=\"value\">".data ++
        (mkDirective ⟨line⟩).value.data ++ "</span></div>".data })
  | some DirType.key =>
    if truthyStr s.original_key then
      Except.ok (s, { st with new_text := st.new_text ++ line ++ ['\n'] })
    else
      let v := (mkDirective ⟨line⟩).value
      Except.ok ({ s with
        original_key := some v,
        key := some (specTransposeChord s.transposerOffset v) }, st)
  | some DirType.transpose =>
    match pyIntList ((splitSepL ' ' (mkDirective ⟨line⟩).value.data).map String.mk) with
    | Except.error e => Except.error e
    | Except.ok ts =>
      Except.ok ({ s with
        standard_transpositions := s.standard_transpositions ++ ts }, st)
  | some DirType.start_chorus =>
    Except.ok (s, { st with new_text := st.new_text ++ "<blockquote class=\x27chorus\x27>\n".data })
  | some DirType.start_bridge =>
    Except.ok (s, { st with new_text := st.new_text ++ "<blockquote class=\x27bridge\x27>\n".data })
  | some DirType.end_chorus =>
    Except.ok (s, { st with new_text := st.new_text ++ "</blockquote>\n".data })
  | some DirType.end_bridge =>
    Except.ok (s, { st with new_text := st.new_text ++ "</blockquote>\n".data })
  | some DirType.start_tab =>
    if st.in_tab then Except.ok (s, st)
    else Except.ok (s, { st with in_tab := true, new_text := st.new_text ++ "```\n".data })
  | some DirType.end_tab =>
    if st.in_tab then
      Except.ok (s, { st with in_tab := false, new_text := st.new_text ++ "```\n".data })
    else Except.ok (s, st)
  | some DirType.new_page =>
    let closing := if st.in_block then "</div>\n".data else []
    Except.ok ({ s with pages := s.pages + 1 },
      { st with
        in_block := false,
        new_text := st.new_text ++ closing ++ "\n<!-- new_page -->\n".data })
  | some DirType.page_image =>
    let closing := if st.in_block then "</div>\n".data else []
    Except.ok (s,
      { st with
        in_block := false,
        new_text := st.new_text ++ closing ++ "<img src=\x27file://".data ++
          s.dir.data ++ '/' :: (mkDirective ⟨line⟩).value.data ++
          "\x27 width=\x27680\x27/>".data })
  | some DirType.instrument =>
    Except.ok ({ s with
      local_instrument_names :=
        s.local_instrument_names ++ [(mkDirective ⟨line⟩).value] },
      { st with cur_inst := some (mkDirective ⟨line⟩).value })
  | some DirType.define => Except.ok (s, st)
  | some DirType.grids => Except.ok (s, st)
  | some DirType.tuning => Except.ok (s, st)
  | some DirType.dirs => Except.ok (s, st)
  | some DirType.files => Except.ok (s, st)
  | some DirType.version => Except.ok (s, st)

/- The parse loop over all lines. -/
def parseLines (s : Song) (st : ParseSt) : List (List Char) → Except PyErr (Song × ParseSt)
  | [] => Except.ok (s, st)
  | l :: rest =>
    match parseLine s st l with
    | Except.error e => Except.error e
    | Except.ok (s2, st2) => parseLines s2 st2 rest

/- `cp_song.parse` (lines 216-340).  The source reassigns `self.text` on
   every iteration (lines 338-340), recomputing the mid-stanza pass from
   the accumulated `new_text`; since the loop always runs at least once
   (str.split never returns an empty list) the net effect is one
   mid-stanza pass over the final accumulated text. -/
def parseInitSt : ParseSt :=
  { in_tab := false, in_block := false, cur_inst := none, new_text := [] }

def songParse (s : Song) : Except PyErr Song :=
  match parseLines s parseInitSt (splitNL s.text.data) with
  | Except.error e => Except.error e
  | Except.ok (s2, st2) => Except.ok { s2 with text := ⟨midStanza st2.new_text⟩ }

/- `cp_song.__init__` (lines 171-213) with the default arguments
   instruments=None, instrument_name=None, nashville=False,
   major_chart=False, lefty=False: initialize the fields, run parse, set
   md and formatted_title to "", and fall back to the title argument when
   no title directive was seen. -/
def cp_song_init (song : String) (transpose : Int) (blank : Bool) : Song := {
  blank := blank,
  instrument_name := none,
  local_instrument_names := [],
  text := song,
  key := none,
  pages := 1,
  original_key := none,
  dir := ".",
  notes_md := "",
  transpose := transpose,
  transposerOffset := transpose,
  standard_transpositions := [0],
  title := "",
  grids := false,
  local_grids := false,
  chords_used := [],
  md := "",
  formatted_title := "" }

def cp_song_new (song title : String) (transpose : Int) (blank : Bool) :
    Except PyErr Song :=
  match songParse (cp_song_init song transpose blank) with
  | Except.error e => Except.error e
  | Except.ok s1 =>
    Except.ok (if s1.title = "" then { s1 with title := title } else s1)

/- A fallback record for impossible error branches and list defaults. -/
def dummySong : Song := {
  blank := false,
  instrument_name := none,
  local_instrument_names := [],
  text := "",
  key := none,
  pages := 1,
  original_key := none,
  dir := ".",
  notes_md := "",
  transpose := 0,
  transposerOffset := 0,
  standard_transpositions := [0],
  title := "",
  grids := false,
  local_grids := false,
  chords_used := [],
  md := "",
  formatted_title := "" }

/- ----- pagination / reorder (books/__init__.py lines 865-906 and
   src/chordprobook.py lines 231-266) ----- -/

/- The blank filler song of the books variant:
   cp_song("", title="", blank=True) (line 870).  `blankSongOk` below
   proves that the constructor succeeds, so the fallback is dead code. -/
def blankSong : Song :=
  match cp_song_new "" "" 0 true with
  | Except.ok s => s
  | Except.error _ => dummySong

/- The blank filler song of the chordprobook.py variant:
   cp_song("{title:This page intentionally left blank}", blank=True)
   (line 236).  That file has its own cp_song class (lines 53-202) whose
   constructor extracts the title directive from the text and leaves one
   page; this record is its net effect on the fields shared with the Song
   carrier (pages 1, blank True, the extracted title, empty remaining
   text), which is all the reorder algorithm reads. -/
def blankSongOld : Song :=
  { dummySong with blank := true, title := "This page intentionally left blank" }

/- Total page count of a list of songs, as accumulated by the
   `for s in waiting: start_page += s.pages` flush loop. -/
def sumPages (l : List Song) : Nat := l.foldr (fun s a => s.pages + a) 0

/- `cp_song_book.reorder` of books/__init__.py (lines 865-906).  The
   four accumulator-passing cases mirror the source exactly; the even-page
   branch condenses the flush loop over `waiting` (append each, advance by
   its pages) into one append and `sumPages`. -/
def reorderBooks (keep : Bool) : Nat → List Song → List Song → List Song → List Song
  | start_page, [], new_order, waiting =>
    if start_page % 2 = 1 ∧ waiting ≠ [] then new_order ++ [blankSong] ++ waiting
    else new_order ++ waiting
  | start_page, s :: old, new_order, waiting =>
    if start_page % 2 = 0 then
      reorderBooks keep (start_page + sumPages waiting + s.pages) old
        (new_order ++ waiting ++ [s]) []
    else if s.pages % 2 = 0 then
      if keep then
        reorderBooks keep (start_page + 1) old (new_order ++ [blankSong, s]) waiting
      else
        reorderBooks keep start_page old new_order (waiting ++ [s])
    else
      reorderBooks keep (start_page + s.pages) old (new_order ++ [s]) waiting

/- `cp_song_book.reorder` of src/chordprobook.py (lines 231-266).  The
   only differences from the books variant: the keep-order branch does not
   advance `start_page` after inserting the blank (lines 258-260), and the
   blank song carries the "intentionally left blank" title. -/
def reorderOld (keep : Bool) : Nat → List Song → List Song → List Song → List Song
  | start_page, [], new_order, waiting =>
    if start_page % 2 = 1 ∧ waiting ≠ [] then new_order ++ [blankSongOld] ++ waiting
    else new_order ++ waiting
  | start_page, s :: old, new_order, waiting =>
    if start_page % 2 = 0 then
      reorderOld keep (start_page + sumPages waiting + s.pages) old
        (new_order ++ waiting ++ [s]) []
    else if s.pages % 2 = 0 then
      if keep then
        reorderOld keep start_page old (new_order ++ [blankSongOld, s]) waiting
      else
        reorderOld keep start_page old new_order (waiting ++ [s])
    else
      reorderOld keep (start_page + s.pages) old (new_order ++ [s]) waiting

/- Claim C1 placement check: song number i of the output starts on page
   p0 + (pages of all songs and blanks before it); every song with an even
   page count must start on an even page. -/
def evPlacedB (p : Nat) : List Song → Bool
  | [] => true
  | s :: rest => (!(s.pages % 2 = 0 : Bool) || (p % 2 = 0 : Bool)) && evPlacedB (p + s.pages) rest

/- The non-blank songs of a list, for the order-preservation claim. -/
def filterNB (l : List Song) : List Song := l.filter (fun s => !s.blank)

/- ----- cp_song.get_key_string and cp_song.format (books/__init__.py,
   lines 343-421 and 505-512) ----- -/

/-- Modelled from the spec: `clean_chord_name` of the missing
chordprobook.chords module.  Spec section 4.4 only requires a chord-name
normalization before recording the distinct chords used; it is modelled
as a fixed function (the identity), which no claim depends on. -/
def specCleanChord (chord : String) : String := chord

/-- Modelled from the spec: the instrument/tuning registry of the missing
chordprobook.instruments module (spec section 6: charts keyed by
instrument name).  Whether a chart exists for a name is all the song
formatter observes; the supported-tunings examples of the repository are
used as the fixed registry. -/
def specInstrumentHasChart (name : String) : Bool :=
  name = "GCEA" ∨ name = "EADGBE"

/- `cp_song.get_key_string` (lines 505-512): an optional transpose
   argument updates `self.transpose` when truthy; when both the original
   key and the transpose are truthy the transposer is rebuilt with the
   current transpose and the key recomputed; returns "(key)" when a key is
   known, "" otherwise.  Returns the mutated song together with the
   string. -/
def get_key_string (s : Song) (trans : Option Int) : Song × String :=
  let s1 : Song :=
    match trans with
    | some t => if t ≠ 0 then { s with transpose := t } else s
    | none => s
  let s2 : Song :=
    if truthyStr s1.original_key ∧ s1.transpose ≠ 0 then
      { s1 with
        transposerOffset := s1.transpose,
        key := some (specTransposeChord s1.transpose (s1.original_key.getD "")) }
    else s1
  (s2, match s2.key with
    | some k => "(" ++ k ++ ")"
    | none => "")

/- The chord substitution of `cp_song.format` (lines 377-389, 415):
   re.sub("\x5c[(.*?)\x5c]", format_chord, line) in the default
   (non-nashville) configuration: transpose the chord when the transposer
   offset is non-zero, record the cleaned chord name when a chart is
   loaded, and wrap the chord in its display span.  Returns the rewritten
   line together with the updated chords_used accumulator. -/
def formatChordScan (offset : Int) (grids : Bool) :
    Nat → List Char → List String → List Char × List String
  | 0, hay, used => (hay, used)
  | _ + 1, [], used => ([], used)
  | fuel + 1, '[' :: rest, used =>
    match splitAtCh ']' rest with
    | some (inner, r2) =>
      let chord : String := ⟨inner⟩
      let chord2 := if offset ≠ 0 then specTransposeChord offset chord else chord
      let used2 :=
        if grids then
          if used.contains (specCleanChord chord2) then used
          else used ++ [specCleanChord chord2]
        else used
      let out := formatChordScan offset grids fuel r2 used2
      ("[<span class=\"chord\">".data ++ chord2.data ++ "</span>]".data ++ out.1, out.2)
    | none =>
      let out := formatChordScan offset grids fuel rest used
      ('[' :: out.1, out.2)
  | fuel + 1, c :: rest, used =>
    let out := formatChordScan offset grids fuel rest used
    (c :: out.1, out.2)

/- The per-line loop of `cp_song.format` (lines 398-415) in the default
   configuration: a key directive inside the body is rendered as a
   "Change key" heading (through the song transposer) when an original
   key is known, and every other line has its chord markers formatted. -/
def formatLinesFold (offset : Int) (okeyTruthy : Bool) (grids : Bool) :
    List (List Char) → List Char → List String → List Char × List String
  | [], md, used => (md, used)
  | l :: rest, md, used =>
    match (mkDirective ⟨l⟩).type with
    | some DirType.key =>
      if okeyTruthy then
        formatLinesFold offset okeyTruthy grids rest
          (md ++ "\n### Change key to ".data ++
            (specTransposeChord offset (pyStrip (mkDirective ⟨l⟩).value)).data ++
            "\n".data)
          used
      else formatLinesFold offset okeyTruthy grids rest md used
    | _ =>
      let out := formatChordScan offset grids l.length l used
      formatLinesFold offset okeyTruthy grids rest (md ++ out.1 ++ ['\n']) out.2

/- `cp_song.format` (lines 343-421) in the default configuration
   (nashville=False, major_chart=False, lefty=False): reset the page
   count to one, resolve the instrument and its chart, update the
   transpose and key, compute the key string (which may rebuild the
   transposer), reset the chords-used list, then rebuild the markdown
   body line by line. -/
def songFormat (s : Song) (transpose : Option Int) (instrument_name : Option String)
    (stand_alone : Bool) : Song :=
  let s1 : Song := { s with pages := 1 }
  let inst : Option String :=
    match instrument_name with
    | none => s1.instrument_name
    | some n => some n
  let s2 : Song := { s1 with local_grids := false, grids := false }
  let s3 : Song :=
    match transpose with
    | some t => if t ≠ 0 then { s2 with transpose := t } else s2
    | none => s2
  let s4 : Song :=
    match inst with
    | some n =>
      { s3 with
        grids := specInstrumentHasChart n,
        local_grids := s3.local_instrument_names.contains n }
    | none => s3
  let s5 : Song :=
    match transpose with
    | some t =>
      if t ≠ 0 ∧ truthyStr s4.original_key then
        { s4 with
          key := some (specTransposeChord s4.transposerOffset (s4.original_key.getD "")) }
      else s4
    | none => s4
  let ks := get_key_string s5 none
  let s6 : Song := ks.1
  let title := s6.title ++ " " ++ ks.2
  let s7 : Song := { s6 with chords_used := [] }
  let body := formatLinesFold s7.transposerOffset (truthyStr s7.original_key) s7.grids
    (splitNL s7.text.data) [] []
  let title2 :=
    if stand_alone ∧ inst.isSome then title ++ " ( " ++ inst.getD "" ++ ")"
    else title
  { s7 with
    chords_used := body.2,
    md := ⟨body.1⟩,
    formatted_title := title2 }

/- ----- cp_song_book and the TOC builder (books/__init__.py,
   lines 46-103, 514-659) ----- -/

/- The book record: the fields of `cp_song_book` that the embedded
   operations read or write (title, version, the ordered songs, the set
   pseudo-songs and the keep-order flag); the instrument registry,
   filesystem paths and output options are out of scope. -/
structure Book where
  version : Option String
  title : Option String
  songs : List Song
  sets : List Song
  keep_order : Bool
  contents : String
  deriving DecidableEq, Repr

/- The per-set loop of `TOC.__init__` (lines 71-74): non-blank sets get an
   entry at the running page count; every set advances the counter by its
   page count. -/
def tocSetsFold : List Song → List String → Nat → List String × Nat
  | [], es, pc => (es, pc)
  | song :: rest, es, pc =>
    let es2 :=
      if !song.blank then
        es ++ ["Set: " ++ song.title ++ " <span style=\x27float:right\x27>" ++
          toString pc ++ "</span>    "]
      else es
    tocSetsFold rest es2 (pc + song.pages)

/- The per-song loop of `TOC.__init__` (lines 81-85): non-blank songs get
   an entry (evaluating `get_key_string`, which can mutate the song);
   every song advances the counter by its page count.  Returns the
   entries, the final counter and the possibly mutated songs. -/
def tocSongsFold : List Song → List String → Nat → List Song →
    List String × Nat × List Song
  | [], es, pc, ss => (es, pc, ss)
  | song :: rest, es, pc, ss =>
    if !song.blank then
      let ks := get_key_string song none
      tocSongsFold rest
        (es ++ [ks.1.title ++ " " ++ ks.2 ++ " <span style=\x27float:right\x27> " ++
          toString pc ++ "</span>    "])
        (pc + ks.1.pages) (ss ++ [ks.1])
    else tocSongsFold rest es (pc + song.pages) (ss ++ [song])

/- `chunked` (lines 54-60): split a list into n slices of size
   ceil(len/n).  A zero n would raise ZeroDivisionError in the source and
   is unreachable (the page target is at least one). -/
def chunked {α : Type} (l : List α) (n : Nat) : List (List α) :=
  let chunksize := (l.length + n - 1) / n
  (List.range n).map (fun i => (l.drop (i * chunksize)).take chunksize)

/- The TOC result: the page target and the entries distributed over
   contents pages. -/
structure TOCData where
  target_num_pages : Nat
  pages : List (List String)
  deriving DecidableEq, Repr

/- `TOC.ideal_songs_per_page` and `TOC.max_songs_per_page`. -/
def idealSongsPerPage : Nat := 40

def maxSongsPerPage : Nat := 50

/- `TOC.__init__` (lines 50-92): count the sets plus the non-blank songs,
   derive the page target, lay out set entries, insert a leading blank
   song when the sets would otherwise end on a recto (lines 77-79,
   mutating the book), lay out song entries, and chunk the combined
   entries when they exceed one page.  Returns the TOC data and the
   mutated book. -/
def TOC_init (book : Book) (start_page : Nat) : TOCData × Book :=
  let num_entries := book.sets.length + (book.songs.filter (fun s => !s.blank)).length
  let target :=
    if num_entries > maxSongsPerPage then (num_entries + (idealSongsPerPage - 1)) / idealSongsPerPage
    else 1
  let setsOut := tocSetsFold book.sets [] (start_page + target)
  let guard := book.sets.length > 0 ∧ (target + book.sets.length) % 2 = 0
  let songs2 := if guard then blankSong :: book.songs else book.songs
  let pc2 := if guard then setsOut.2 + 1 else setsOut.2
  let songsOut := tocSongsFold songs2 [] pc2 []
  let entries := setsOut.1 ++ songsOut.1
  let pages :=
    if num_entries > maxSongsPerPage then chunked entries target else [entries]
  ({ target_num_pages := target, pages := pages },
   { book with songs := songsOut.2.2 })

/- `TOC.format` (lines 95-103): the return statement sits inside the for
   loop, so only the first contents page is ever emitted; the pages list
   is never empty in practice (TOC.__init__ always produces at least one
   chunk), so the empty case is unreachable. -/
def tocFormat (t : TOCData) : String :=
  match t.pages with
  | [] => ""
  | page :: _ =>
    "\n<div class=\x27song\x27><div class=\x27page\x27><div class=\x27song-page\x27><div class=\x27song-text\x27>\n" ++
      String.intercalate "\n" page ++
      "\n</div></div></div></div>\n            "

/- `cp_song_book.format` (lines 649-659): default the title, format every
   song (which among other things resets its page count to one), reorder
   the formatted songs starting from page one, then build the table of
   contents starting at page two. -/
def bookFormat (b : Book) (instrument_name : Option String) : Book :=
  let b1 : Book :=
    match b.title with
    | none => { b with title := some "Songbook" }
    | some _ => b
  let formatted := b1.songs.map (fun s => songFormat s none instrument_name false)
  let reordered := reorderBooks b1.keep_order 1 formatted [] []
  let b2 : Book := { b1 with songs := reordered }
  let toc := TOC_init b2 2
  { toc.2 with contents := tocFormat toc.1 }

/- Number of new-page directive lines in a text, the page count that
   `parse` accumulates on top of the initial single page. -/
def countNP (text : String) : Nat :=
  ((splitNL text.data).filter
    (fun l => (mkDirective ⟨l⟩).type = some DirType.new_page)).length

/- ----- extract_transposition and order_by_setlist (books/__init__.py,
   lines 23-32 and 764-861) ----- -/

/- Leftmost position where the transpose-directive pattern
   "\x7b(tr|transpose):" can start (the alternation tries "tr" first and
   backtracks to "transpose"). -/
def findTrPos : List Char → Option Nat
  | [] => none
  | c :: rest =>
    if "\x7btr:".data.isPrefixOf (c :: rest) ∨ "\x7btranspose:".data.isPrefixOf (c :: rest) then
      some 0
    else (findTrPos rest).map (· + 1)

/- Split a character list at its last right brace (the greedy ".*"
   backtracks to the final "\x7d"). -/
def lastCloseSplit (l : List Char) : Option (List Char × List Char) :=
  match splitAtCh '\x7d' l.reverse with
  | none => none
  | some (afterRev, beforeRev) => some (beforeRev.reverse, afterRev.reverse)

/- `extract_transposition` (lines 23-32):
   re.search("\x7b(tr|transpose): *(.*)\x7d", text): find the first
   directive start, skip the greedy space run, capture up to the last
   right brace, remove the matched span and parse the captured words as
   integers (ValueError propagates); without a match the text is returned
   unchanged with the default [0].  The texts processed here are single
   setlist lines, so the no-newline restriction of "." is vacuous. -/
def extract_transposition (text : String) : Except PyErr (String × List Int) :=
  match findTrPos text.data with
  | none => Except.ok (text, [0])
  | some p =>
    let before := text.data.take p
    let atP := text.data.drop p
    let plen := if "\x7btr:".data.isPrefixOf atP then 4 else 11
    let afterPrefix := atP.drop plen
    let body := afterPrefix.dropWhile (fun c => c = ' ')
    match lastCloseSplit body with
    | none => Except.ok (text, [0])
    | some (grp, after) =>
      match pyIntList ((splitSepL ' ' grp).map String.mk) with
      | Except.error e => Except.error e
      | Except.ok ts => Except.ok (⟨before ++ after⟩, [0] ++ ts)

/- Split a character list at the non-overlapping occurrences of a
   needle, left to right (the literal segments of the search pattern that
   `song_name.replace(" +", ".*?")` builds). -/
def splitSubAux (needle : List Char) : Nat → List Char → List (List Char)
  | 0, hay => [hay]
  | _ + 1, [] => [[]]
  | fuel + 1, c :: rest =>
    if needle ≠ [] ∧ needle.isPrefixOf (c :: rest) then
      [] :: splitSubAux needle fuel (List.drop (needle.length - 1) rest)
    else
      match splitSubAux needle fuel rest with
      | [] => [[c]]
      | l :: ls => (c :: l) :: ls

def splitSub (needle hay : List Char) : List (List Char) :=
  splitSubAux needle hay.length hay

/- Leftmost index at which a needle occurs in a haystack. -/
def findSubIdx (needle : List Char) : List Char → Option Nat
  | [] => if needle = [] then some 0 else none
  | c :: rest =>
    if needle.isPrefixOf (c :: rest) then some 0
    else (findSubIdx needle rest).map (· + 1)

/- Existence of an in-order occurrence of all literal segments, which is
   re.search of the pattern seg0.*?seg1.*?...segN: taking each segment at
   its leftmost position after the previous one is complete for
   existence.  This models the searches of order_by_setlist for
   references whose literal parts contain no regex metacharacters and
   titles without newlines, which covers every title the parser can
   produce. -/
def segsSearch : List (List Char) → List Char → Bool
  | [], _ => true
  | seg :: rest, subj =>
    match findSubIdx seg subj with
    | none => false
    | some i => segsSearch rest (subj.drop (i + seg.length))

/- The literal segments of the search pattern built on line 826:
   song_name.replace(" +", ".*?").lower(). -/
def setlistSegs (song_name : String) : List (List Char) :=
  splitSub " +".data (pyLower song_name).data

/- The `for song in self.songs: if re.search(...): ...break` loop
   (lines 829-850): the first song whose lower-cased title matches wins. -/
def findFirstMatch (segs : List (List Char)) : List Song → Option Song
  | [] => none
  | s :: rest =>
    if segsSearch segs (pyLower s.title).data then some s
    else findFirstMatch segs rest

/- The loop-local state of `order_by_setlist`.  In the source
   `current_song` aliases the song most recently appended to `new_order`
   and `current_set` the set most recently appended to `self.sets`, and
   both are mutated after being appended; the embedding therefore keeps
   the current song/set out of the done lists until superseded, so the
   final lists are done_order ++ current_song and the book sets plus
   done_sets ++ current_set. -/
structure SetlistSt where
  done_order : List Song
  current_song : Option Song
  done_sets : List Song
  current_set : Option Song
  new_set : Bool
  title : Option String
  version : Option String
  deriving DecidableEq, Repr

/- One non-empty stripped setlist line (the body of the loop of
   lines 802-859).  A reference to `current_set` while it is None
   reproduces the source's AttributeError (`current_set.text` on None,
   lines 848 and 855). -/
def setlistDirUpdate (st : SetlistSt) (line : String) : SetlistSt :=
  if pyStartsWith line "\x7b" && pyEndsWith line "\x7d" then
    match (mkDirective line).type with
    | some DirType.title => { st with title := some (mkDirective line).value }
    | some DirType.version => { st with version := some (mkDirective line).value }
    | _ => st
  else st

def setlistLine (songs : List Song) (st : SetlistSt) (line : String) :
    Except PyErr SetlistSt :=
  let st := setlistDirUpdate st line
  let ps : String := ⟨collapseWS line.data⟩
  if pyStartsWith ps "# " then
    let name := pyStrip (pyReplace ps "# " "")
    let st :=
      match st.current_song, st.current_set with
      | some cs, some cset =>
        let cs2 : Song :=
          { cs with title := cs.title ++ " \x7bEnd of " ++ cset.title ++ "\x7d" }
        { st with current_song := some cs2 }
      | _, _ => st
    match cp_song_new ("\x7btitle: " ++ name ++ "\x7d") "Song" 0 false with
    | Except.error e => Except.error e
    | Except.ok newSet =>
      Except.ok { st with
        done_sets := st.done_sets ++ st.current_set.toList,
        current_set := some newSet,
        new_set := true }
  else if pyStartsWith ps "## " then
    match extract_transposition (pyStrip (pyReplace ps "## " "")) with
    | Except.error e => Except.error e
    | Except.ok (sn1, transpositions0) =>
      let song_name := pyStrip sn1
      match findFirstMatch (setlistSegs song_name) songs with
      | some song =>
        let transpositions :=
          if transpositions0 = [0] then song.standard_transpositions else transpositions0
        let annotate : Except PyErr (Song × Bool) :=
          if st.new_set then
            match st.current_set with
            | some cset =>
              Except.ok ({ song with
                title := song.title ++ " \x7bStart of " ++ cset.title ++ "\x7d" }, false)
            | none => Except.error PyErr.attributeError
          else Except.ok (song, st.new_set)
        match annotate with
        | Except.error e => Except.error e
        | Except.ok (cur1, new_set2) =>
          let cur2 :=
            if transpositions.length > 1 ∧ transpositions.getD 1 0 ≠ 0 then
              songFormat cur1 (some (transpositions.getD 1 0)) none true
            else cur1
          let song_name2 :=
            match cur2.key with
            | some k => song_name ++ " (in " ++ k ++ ")"
            | none => song_name
          match st.current_set with
          | none => Except.error PyErr.attributeError
          | some cset =>
            let cset2 : Song :=
              { cset with text := cset.text ++ "## " ++ song_name2 ++ "\n" }
            Except.ok { st with
              done_order := st.done_order ++ st.current_song.toList,
              current_song := some cur2,
              current_set := some cset2,
              new_set := new_set2 }
      | none =>
        match cp_song_new ("\x7btitle: " ++ song_name ++ " (not found)\x7d")
            "Song" 0 false with
        | Except.error e => Except.error e
        | Except.ok placeholder =>
          match st.current_set with
          | none => Except.error PyErr.attributeError
          | some cset =>
            let cset2 : Song :=
              { cset with text := cset.text ++ "## " ++ song_name ++ " (NO CHART)\n" }
            Except.ok { st with
              done_order := st.done_order ++ st.current_song.toList,
              current_song := some placeholder,
              current_set := some cset2 }
  else
    match st.current_song with
    | some cs =>
      match st.current_set with
      | some cset =>
        Except.ok { st with
          current_song := some { cs with notes_md := cs.notes_md ++ ps.data.asString ++ "\n\n" },
          current_set := some { cset with text := cset.text ++ ps.data.asString ++ "\n\n" } }
      | none => Except.error PyErr.attributeError
    | none => Except.ok st

/- The loop over all setlist lines: blank lines are skipped. -/
def setlistLines (songs : List Song) : List String → SetlistSt → Except PyErr SetlistSt
  | [], st => Except.ok st
  | l :: rest, st =>
    let stripped := pyStrip l
    if stripped = "" then setlistLines songs rest st
    else
      match setlistLine songs st stripped with
      | Except.error e => Except.error e
      | Except.ok st2 => setlistLines songs rest st2

/- `cp_song_book.order_by_setlist` (lines 764-861) applied to setlist
   text (the path/file-loading preamble of lines 784-795 is filesystem
   access and out of scope): reset the version, process every line, then
   replace the book's songs with the new order and extend its sets. -/
def order_by_setlist (b : Book) (setlist : String) : Except PyErr Book :=
  match setlistLines b.songs (pyLines setlist)
      { done_order := [], current_song := none, done_sets := [],
        current_set := none, new_set := false, title := b.title,
        version := none } with
  | Except.error e => Except.error e
  | Except.ok st =>
    Except.ok { b with
      title := st.title,
      version := st.version,
      songs := st.done_order ++ st.current_song.toList,
      sets := b.sets ++ st.done_sets ++ st.current_set.toList }

/- Concrete books for the setlist claims. -/
def emptyBook : Book :=
  { version := none, title := none, songs := [], sets := [], keep_order := false,
    contents := "" }

def mkTitleSong (t : String) : Song := { dummySong with title := t }

def bookAG : Book :=
  { emptyBook with songs :=
      [mkTitleSong "Amazing Grace (Traditional)", mkTitleSong "Amazing Grace (Fast)"] }

def bookAHG : Book :=
  { emptyBook with songs := [mkTitleSong "Amazing Holy Grace"] }

def bookHSN : Book :=
  { emptyBook with songs := [mkTitleSong "Holy Silent Night"] }

/- The placeholder song for the unmatched reference "nosuch". -/
def npPlaceholder : Song :=
  match cp_song_new "\x7btitle: nosuch (not found)\x7d" "Song" 0 false with
  | Except.ok s => s
  | Except.error _ => dummySong

/- A state with one open set, as it is after processing "# S". -/
def witnessSt : SetlistSt :=
  { done_order := [], current_song := none, done_sets := [],
    current_set := some (mkTitleSong "S"), new_set := true,
    title := none, version := none }

/- ===================== THEOREMS ===================== -/

/- Membership of a successful table lookup. -/
theorem assocFind_mem {α : Type} {t : List (String × α)} {s : String} {v : α}
    (h : assocFind t s = some v) : (s, v) ∈ t := by
  induction t with
  | nil => simp [assocFind] at h
  | cons p rest ih =>
    obtain ⟨k, w⟩ := p
    by_cases hk : k = s
    · subst hk
      simp [assocFind] at h
      simp [h]
    · simp [assocFind, hk] at h
      exact List.mem_cons_of_mem _ (ih h)

/- Every index stored in the note table lies in [0, 12). -/
theorem noteIndices_range {s : String} {v : Int}
    (h : tableFind noteIndices s = some v) : 0 ≤ v ∧ v < 12 := by
  have hm := assocFind_mem h
  simp only [noteIndices, List.mem_cons, List.not_mem_nil, or_false] at hm
  rcases hm with h | h | h | h | h | h | h | h | h | h | h | h | h | h | h | h | h <;>
    simp_all

/- Looking up the canonical spelling of a pitch class recovers its index. -/
theorem tableFind_notesTable : ∀ m : Nat, m < 12 →
    tableFind noteIndices (notesTable.getD m "") = some (m : Int) := by
  decide

/- Unknown notes make `transpose_note` fail with a NameError. -/
theorem transpose_note_unknown {note : String} (h : tableFind noteIndices note = none)
    (offset : Int) : transpose_note offset note = Except.error PyErr.nameError := by
  simp [transpose_note, getNoteIndex, h]

/- Evaluation of `transpose_note` on a note present in the table. -/
theorem transpose_note_ok {note : String} {i : Int}
    (h : tableFind noteIndices note = some i) (offset : Int) :
    transpose_note offset note =
      Except.ok (notesTable.getD ((i + offset) % 12).toNat "") := by
  simp [transpose_note, getNoteIndex, h]

/-- C4: for every note spelling `n` in the fixed note-index table and every
offset `k` in [-11, 11], transposing by `k` and then by `-k` yields the
canonical display spelling of the pitch class of `n`, namely the entry of
the canonical notes table at the index the table assigns to `n`. -/
theorem c4_round_trip (n : String) (i k : Int)
    (hn : tableFind noteIndices n = some i) (hk1 : -11 ≤ k) (hk2 : k ≤ 11) :
    (transpose_note k n).bind (transpose_note (-k)) =
      Except.ok (notesTable.getD i.toNat "") := by
  obtain ⟨hi0, hi12⟩ := noteIndices_range hn
  have h1 := transpose_note_ok hn k
  have hj0 : 0 ≤ (i + k) % 12 := Int.emod_nonneg _ (by norm_num)
  have hj12 : (i + k) % 12 < 12 := Int.emod_lt_of_pos _ (by norm_num)
  have hjn : ((i + k) % 12).toNat < 12 := by omega
  have h2 : tableFind noteIndices (notesTable.getD ((i + k) % 12).toNat "") =
      some ((((i + k) % 12).toNat : Nat) : Int) := tableFind_notesTable _ hjn
  have h3 := transpose_note_ok h2 (-k)
  have harith : ((((((i + k) % 12).toNat : Nat) : Int) + -k) % 12).toNat = i.toNat := by
    omega
  rw [h1, Except.bind, h3, harith]

/-- Witness for C4 at the concrete input n = "Db", k = 3: the round trip
returns "C#", the canonical spelling of pitch class 1 (not the input
spelling "Db"). -/
theorem c4_round_trip_witness :
    (transpose_note 3 "Db").bind (transpose_note (-3)) = Except.ok "C#" := by
  have h := c4_round_trip "Db" 1 3 (by decide) (by decide) (by decide)
  simpa using h

/-- C5: the claim states that `transpose_note` returns unrecognized input
unchanged and never raises.  The code instead raises `NameError` on every
unrecognized note, because `__getNoteIndex` evaluates the undefined bare
name `none` (line 26 of src/chordprobook.py; the guard `note_index != None`
on line 32 shows the intended unchanged-return behaviour).  This theorem
evaluates the embedded code at the failing input "H". -/
theorem c5_unknown_note_raises :
    transpose_note 2 "H" = Except.error PyErr.nameError := by
  decide

/- Helper: a string with no root-note letters is scanned without change. -/
theorem transposeScan_no_root (k : Int) :
    ∀ l : List Char, (∀ c ∈ l, isRootLetter c = false) →
      transposeScan k l = Except.ok l := by
  intro l
  induction l with
  | nil => intro _; rfl
  | cons c rest ih =>
    intro h
    have hc : isRootLetter c = false := h c (List.mem_cons_self c rest)
    have hr : transposeScan k rest = Except.ok rest :=
      ih fun x hx => h x (List.mem_cons_of_mem _ hx)
    cases rest with
    | nil => simp [transposeScan, hc]
    | cons c2 rest2 => simp [transposeScan, hc, hr]

/-- C3 counterexample: the claim asserts that transposing "Dmaj7/F#" by +2
yields exactly "Emaj7/G#".  The code spells every result from its canonical
table, whose entry for pitch class 8 is "Ab", so the actual result is
"Emaj7/Ab", not "Emaj7/G#". -/
theorem c3_counterexample :
    transpose_chord 2 "Dmaj7/F#" = Except.ok "Emaj7/Ab" ∧
      "Emaj7/Ab" ≠ "Emaj7/G#" := by
  constructor
  · decide
  · decide

/-- C3 amended: `transpose_chord` replaces only root-note tokens (a letter
A-G optionally followed by # or b, wherever they occur, including a bass
note after a slash) and leaves every other substring unchanged; in
particular a string containing no A-G letters is returned untouched, and
transposing "Dmaj7/F#" by +2 yields exactly "Emaj7/Ab" (the canonical
spelling of pitch class 8, rather than the claim's "Emaj7/G#"). -/
theorem c3_amended :
    (∀ (k : Int) (s : String), (∀ c ∈ s.data, isRootLetter c = false) →
        transpose_chord k s = Except.ok s) ∧
    transpose_chord 2 "Dmaj7/F#" = Except.ok "Emaj7/Ab" := by
  constructor
  · intro k s h
    have hs := transposeScan_no_root k s.data h
    simp [transpose_chord, hs]
  · decide

/-- Witness for C3 amended: applied to the concrete root-free string
"sus4/9" and to the concrete chord of the claim. -/
theorem c3_amended_witness :
    transpose_chord 5 "sus4/9" = Except.ok "sus4/9" ∧
      transpose_chord 2 "Dmaj7/F#" = Except.ok "Emaj7/Ab" :=
  ⟨c3_amended.1 5 "sus4/9" (by decide), c3_amended.2⟩

/- Splitting a character list at its first colon, when it has one. -/
theorem colon_split {l : List Char} (h : ':' ∈ l) :
    ∃ nm v, l = nm ++ ':' :: v ∧ ':' ∉ nm := by
  induction l with
  | nil => simp at h
  | cons c rest ih =>
    by_cases hc : c = ':'
    · subst hc
      exact ⟨[], rest, rfl, by simp⟩
    · have hr : ':' ∈ rest := by
        rcases List.mem_cons.mp h with h1 | h1
        · exact absurd h1.symm hc
        · exact h1
      obtain ⟨nm, v, h1, h2⟩ := ih hr
      refine ⟨c :: nm, v, by simp [h1], ?_⟩
      intro hh
      rcases List.mem_cons.mp hh with h3 | h3
      · exact hc h3.symm
      · exact h2 h3

/- `partitionColon` on a colon-free list keeps the whole list as the head. -/
theorem partitionColon_no_colon {l : List Char} (h : ':' ∉ l) :
    partitionColon l = (l, []) := by
  induction l with
  | nil => rfl
  | cons c rest ih =>
    have hc : ¬ c = ':' := by
      intro hh
      exact h (by simp [hh])
    have hr : ':' ∉ rest := fun hh => h (List.mem_cons_of_mem _ hh)
    simp [partitionColon, hc, ih hr]

/- `partitionColon` splits exactly at the first colon. -/
theorem partitionColon_first {nm v : List Char} (h : ':' ∉ nm) :
    partitionColon (nm ++ ':' :: v) = (nm, v) := by
  induction nm with
  | nil => simp [partitionColon]
  | cons c rest ih =>
    have hc : ¬ c = ':' := by
      intro hh
      exact h (by simp [hh])
    have hr : ':' ∉ rest := fun hh => h (List.mem_cons_of_mem _ hh)
    simp [partitionColon, hc, ih hr]

/- A string starting with a left brace decomposes as one. -/
theorem startsWith_brace {s : String} (h : pyStartsWith s "\x7b" = true) :
    ∃ t, s.data = '\x7b' :: t := by
  cases hs : s.data with
  | nil => simp [pyStartsWith, hs, List.isPrefixOf] at h
  | cons c t =>
    have hcc : ('\x7b' == c) = true := by
      simpa [pyStartsWith, hs, List.isPrefixOf] using h
    have hc2 : '\x7b' = c := by simpa using hcc
    subst hc2
    exact ⟨t, rfl⟩

/- A string ending with a right brace decomposes as one. -/
theorem endsWith_brace {s : String} (h : pyEndsWith s "\x7d" = true) :
    ∃ t, s.data = t ++ ['\x7d'] := by
  have h2 : ∃ t, s.data.reverse = '\x7d' :: t := by
    cases hrev : s.data.reverse with
    | nil => simp [pyEndsWith, hrev, List.isPrefixOf] at h
    | cons c t =>
      have hcc : ('\x7d' == c) = true := by
        simpa [pyEndsWith, hrev, List.isPrefixOf] using h
      have hc2 : '\x7d' = c := by simpa using hcc
      subst hc2
      exact ⟨t, rfl⟩
  obtain ⟨t, ht⟩ := h2
  refine ⟨t.reverse, ?_⟩
  have h3 := congrArg List.reverse ht
  simpa using h3

/- Computation rules for the brace tests on explicit decompositions. -/
theorem startsWith_brace_cons (t : List Char) :
    pyStartsWith ⟨'\x7b' :: t⟩ "\x7b" = true := by
  have hd : "\x7b".data = ['\x7b'] := by decide
  show List.isPrefixOf "\x7b".data ('\x7b' :: t) = true
  rw [hd]
  simp [List.isPrefixOf_iff_prefix, List.cons_prefix_cons]

theorem endsWith_brace_concat (t : List Char) :
    pyEndsWith ⟨t ++ ['\x7d']⟩ "\x7d" = true := by
  have hd : "\x7d".data = ['\x7d'] := by decide
  show List.isPrefixOf "\x7d".data.reverse (t ++ ['\x7d']).reverse = true
  rw [hd, List.reverse_append]
  simp [List.isPrefixOf_iff_prefix, List.cons_prefix_cons]

/-- C9: a line is classified as a directive (type not None) exactly when its
stripped text has the form \x7bname\x7d or \x7bname: value\x7d with the
colon-free name matched case-insensitively (lower-cased) in the alias
table; every malformed line (missing brace, unknown name) yields type None,
and the constructor is a total function, so it never raises. -/
theorem c9_directive_classification (line : String) :
    ((mkDirective line).type ≠ none) ↔
      ∃ nm v : List Char,
        ':' ∉ nm ∧
        (assocFind directives (pyLower ⟨nm⟩)).isSome = true ∧
        ((pyStrip line).data = '\x7b' :: nm ++ ['\x7d'] ∨
         (pyStrip line).data = '\x7b' :: nm ++ ':' :: v ++ ['\x7d']) := by
  constructor
  · intro h
    unfold mkDirective at h
    cases hb : (pyStartsWith (pyStrip line) "\x7b" && pyEndsWith (pyStrip line) "\x7d") with
    | false =>
      rw [hb] at h
      simp at h
    | true =>
      rw [hb, if_pos rfl] at h
      have hb2 := hb
      rw [Bool.and_eq_true] at hb2
      obtain ⟨t1, ht1⟩ := startsWith_brace hb2.1
      obtain ⟨t2, ht2⟩ := endsWith_brace hb2.2
      have hmid : ∃ mid, (pyStrip line).data = '\x7b' :: mid ++ ['\x7d'] := by
        cases t2 with
        | nil =>
          have hcontr : '\x7b' :: t1 = ([] : List Char) ++ ['\x7d'] := ht1.symm.trans ht2
          injection hcontr with h1 h2
          exact absurd h1 (by decide)
        | cons c t2r =>
          have hh : '\x7b' :: t1 = (c :: t2r) ++ ['\x7d'] := ht1.symm.trans ht2
          simp only [List.cons_append, List.cons.injEq] at hh
          refine ⟨t2r, ?_⟩
          rw [ht1, hh.2]
          simp
      obtain ⟨mid, hmid⟩ := hmid
      have hinner : dirInner (pyStrip line).data = mid := by
        rw [hmid, dirInner]
        simp
      rw [hinner] at h
      by_cases hcol : ':' ∈ mid
      · obtain ⟨nm, v, hdec, hnm⟩ := colon_split hcol
        rw [hdec, partitionColon_first hnm] at h
        refine ⟨nm, v, hnm, ?_, Or.inr (by rw [hmid, hdec]; simp)⟩
        cases hfind : assocFind directives (pyLower ⟨nm⟩) with
        | none => rw [hfind] at h; simp at h
        | some t => simp
      · rw [partitionColon_no_colon hcol] at h
        refine ⟨mid, [], hcol, ?_, Or.inl hmid⟩
        cases hfind : assocFind directives (pyLower ⟨mid⟩) with
        | none => rw [hfind] at h; simp at h
        | some t => simp
  · rintro ⟨nm, v, hnm, hfind, hdec | hdec⟩
    · unfold mkDirective
      have hcond : (pyStartsWith (pyStrip line) "\x7b" &&
          pyEndsWith (pyStrip line) "\x7d") = true := by
        rw [Bool.and_eq_true]
        constructor
        · have : pyStrip line = ⟨'\x7b' :: nm ++ ['\x7d']⟩ := by
            cases hps : pyStrip line
            simp only [hps] at hdec
            rw [hdec]
          rw [this]
          exact startsWith_brace_cons _
        · have : pyStrip line = ⟨('\x7b' :: nm) ++ ['\x7d']⟩ := by
            cases hps : pyStrip line
            simp only [hps] at hdec
            rw [hdec]
          rw [this]
          exact endsWith_brace_concat _
      rw [hcond, if_pos rfl]
      have hinner : dirInner (pyStrip line).data = nm := by
        rw [hdec, dirInner]
        simp
      rw [hinner, partitionColon_no_colon hnm]
      obtain ⟨t, ht⟩ := Option.isSome_iff_exists.mp hfind
      simp [ht]
    · unfold mkDirective
      have hcond : (pyStartsWith (pyStrip line) "\x7b" &&
          pyEndsWith (pyStrip line) "\x7d") = true := by
        rw [Bool.and_eq_true]
        constructor
        · have : pyStrip line = ⟨'\x7b' :: nm ++ ':' :: v ++ ['\x7d']⟩ := by
            cases hps : pyStrip line
            simp only [hps] at hdec
            rw [hdec]
          rw [this]
          exact startsWith_brace_cons _
        · have : pyStrip line = ⟨('\x7b' :: nm ++ ':' :: v) ++ ['\x7d']⟩ := by
            cases hps : pyStrip line
            simp only [hps] at hdec
            rw [hdec]
          rw [this]
          exact endsWith_brace_concat _
      rw [hcond, if_pos rfl]
      have hinner : dirInner (pyStrip line).data = nm ++ ':' :: v := by
        rw [hdec, dirInner]
        have h1 : ('\x7b' :: nm ++ ':' :: v ++ ['\x7d']).drop 1 =
            nm ++ ':' :: v ++ ['\x7d'] := by
          simp
        rw [h1]
        have h2 : nm ++ ':' :: v ++ ['\x7d'] = (nm ++ ':' :: v) ++ ['\x7d'] := by
          simp
        rw [h2, List.dropLast_concat]
      rw [hinner, partitionColon_first hnm]
      obtain ⟨t, ht⟩ := Option.isSome_iff_exists.mp hfind
      simp [ht]

/- The books-variant blank song construction succeeds, so the fallback
   branch in `blankSong` is dead. -/
theorem blankSongOk : cp_song_new "" "" 0 true = Except.ok blankSong := rfl

theorem blankSong_blank : blankSong.blank = true := rfl

theorem blankSong_pages : blankSong.pages = 1 := rfl

theorem blankSongOld_blank : blankSongOld.blank = true := rfl

theorem blankSongOld_pages : blankSongOld.pages = 1 := rfl

theorem sumPages_nil : sumPages [] = 0 := rfl

theorem sumPages_cons (s : Song) (l : List Song) :
    sumPages (s :: l) = s.pages + sumPages l := rfl

theorem sumPages_append : ∀ xs ys : List Song,
    sumPages (xs ++ ys) = sumPages xs + sumPages ys
  | [], ys => by simp [sumPages_nil]
  | x :: xs, ys => by
    rw [List.cons_append, sumPages_cons, sumPages_cons, sumPages_append xs ys]
    omega

/- Unfolding of the placement check on a cons cell. -/
theorem evPlacedB_cons (p : Nat) (s : Song) (l : List Song) :
    evPlacedB p (s :: l) = true ↔
      (s.pages % 2 = 0 → p % 2 = 0) ∧ evPlacedB (p + s.pages) l = true := by
  show ((!(s.pages % 2 = 0 : Bool) || (p % 2 = 0 : Bool)) &&
      evPlacedB (p + s.pages) l) = true ↔ _
  rw [Bool.and_eq_true, Bool.or_eq_true, Bool.not_eq_true',
    decide_eq_false_iff_not, decide_eq_true_eq]
  constructor
  · rintro ⟨h1 | h1, h2⟩
    · exact ⟨fun hh => absurd hh h1, h2⟩
    · exact ⟨fun _ => h1, h2⟩
  · rintro ⟨h1, h2⟩
    refine ⟨?_, h2⟩
    by_cases hh : s.pages % 2 = 0
    · exact Or.inr (h1 hh)
    · exact Or.inl hh

/- The placement check splits across an append. -/
theorem evPlacedB_append : ∀ (xs : List Song) (p : Nat) (ys : List Song),
    evPlacedB p (xs ++ ys) = (evPlacedB p xs && evPlacedB (p + sumPages xs) ys)
  | [], p, ys => by simp [evPlacedB, sumPages_nil]
  | x :: xs, p, ys => by
    rw [List.cons_append]
    show (_ && evPlacedB (p + x.pages) (xs ++ ys)) = _
    rw [evPlacedB_append xs (p + x.pages) ys]
    show _ = (_ && evPlacedB (p + x.pages) xs && _)
    rw [sumPages_cons]
    rw [Bool.and_assoc]
    have h : p + x.pages + sumPages xs = p + (x.pages + sumPages xs) := by omega
    rw [h]

/- A list of even-page songs placed from an even page passes the check. -/
theorem evPlacedB_evens : ∀ (w : List Song) (p : Nat),
    (∀ s ∈ w, s.pages % 2 = 0) → p % 2 = 0 → evPlacedB p w = true
  | [], _, _, _ => rfl
  | s :: rest, p, hw, hp => by
    have hs := hw s (List.mem_cons_self s rest)
    have hnext : (p + s.pages) % 2 = 0 := by omega
    have ih := evPlacedB_evens rest (p + s.pages)
      (fun x hx => hw x (List.mem_cons_of_mem _ hx)) hnext
    rw [evPlacedB_cons]
    exact ⟨fun _ => hp, ih⟩

/- Total pages of a list of even-page songs is even. -/
theorem sumPages_even : ∀ w : List Song,
    (∀ s ∈ w, s.pages % 2 = 0) → sumPages w % 2 = 0
  | [], _ => rfl
  | s :: rest, hw => by
    have h1 := hw s (List.mem_cons_self s rest)
    have h2 := sumPages_even rest (fun x hx => hw x (List.mem_cons_of_mem _ hx))
    rw [sumPages_cons]
    omega

/- Invariant-carrying induction for the books reorder: if the page
   counter has the parity of the true next page, everything already
   placed is correctly placed, and every deferred song has an even page
   count, then the final output places every even-page song on an even
   page.  The counter can differ from the true page number by an even
   amount in keep-order mode (the source advances it by 1 instead of
   1 + pages after inserting a blank), which is why only its parity is
   assumed. -/
theorem reorderBooks_even_aux (keep : Bool) (p0 : Nat) :
    ∀ (old : List Song) (start : Nat) (new_order waiting : List Song),
      (p0 + sumPages new_order) % 2 = start % 2 →
      evPlacedB p0 new_order = true →
      (∀ s ∈ waiting, s.pages % 2 = 0) →
      evPlacedB p0 (reorderBooks keep start old new_order waiting) = true
  | [], start, new_order, waiting, hinv, hnew, hwait => by
    rw [reorderBooks]
    by_cases hc : start % 2 = 1 ∧ waiting ≠ []
    · rw [if_pos hc]
      have hb : evPlacedB (p0 + sumPages new_order) [blankSong] = true := by
        rw [evPlacedB_cons]
        exact ⟨fun h => absurd h (by rw [blankSong_pages]; omega), rfl⟩
      have hw : evPlacedB (p0 + sumPages (new_order ++ [blankSong])) waiting = true := by
        apply evPlacedB_evens waiting _ hwait
        rw [sumPages_append, sumPages_cons, sumPages_nil, blankSong_pages]
        omega
      rw [evPlacedB_append, evPlacedB_append, hnew, hb, hw]
      rfl
    · rw [if_neg hc]
      rw [evPlacedB_append, hnew]
      rcases Decidable.not_and_iff_or_not.mp hc with h1 | h2
      · have hw : evPlacedB (p0 + sumPages new_order) waiting = true := by
          apply evPlacedB_evens waiting _ hwait
          omega
        rw [hw]
        rfl
      · rw [Decidable.not_not] at h2
        subst h2
        rfl
  | s :: old, start, new_order, waiting, hinv, hnew, hwait => by
    rw [reorderBooks]
    by_cases h0 : start % 2 = 0
    · rw [if_pos h0]
      apply reorderBooks_even_aux keep p0 old
      · rw [sumPages_append, sumPages_append, sumPages_cons, sumPages_nil]
        omega
      · have hw : evPlacedB (p0 + sumPages new_order) waiting = true := by
          apply evPlacedB_evens waiting _ hwait
          omega
        have hsp : evPlacedB (p0 + sumPages (new_order ++ waiting)) [s] = true := by
          rw [evPlacedB_cons]
          refine ⟨fun _ => ?_, rfl⟩
          have hwsum := sumPages_even waiting hwait
          rw [sumPages_append]
          omega
        rw [evPlacedB_append, evPlacedB_append, hnew, hw, hsp]
        rfl
      · intro x hx
        simp at hx
    · rw [if_neg h0]
      by_cases hs : s.pages % 2 = 0
      · rw [if_pos hs]
        cases keep with
        | true =>
          rw [if_pos rfl]
          apply reorderBooks_even_aux true p0 old
          · rw [sumPages_append, sumPages_cons, sumPages_cons, sumPages_nil,
              blankSong_pages]
            omega
          · have h2 : evPlacedB (p0 + sumPages new_order) [blankSong, s] = true := by
              rw [evPlacedB_cons]
              constructor
              · intro h
                exact absurd h (by rw [blankSong_pages]; omega)
              · rw [evPlacedB_cons, blankSong_pages]
                exact ⟨fun _ => by omega, rfl⟩
            rw [evPlacedB_append, hnew, h2]
            rfl
          · exact hwait
        | false =>
          rw [if_neg (by simp)]
          apply reorderBooks_even_aux false p0 old start new_order (waiting ++ [s])
            hinv hnew
          intro x hx
          rcases List.mem_append.mp hx with h1 | h1
          · exact hwait x h1
          · rw [List.mem_singleton.mp h1]
            exact hs
      · rw [if_neg hs]
        apply reorderBooks_even_aux keep p0 old
        · rw [sumPages_append, sumPages_cons, sumPages_nil]
          omega
        · have h2 : evPlacedB (p0 + sumPages new_order) [s] = true := by
            rw [evPlacedB_cons]
            exact ⟨fun h => absurd h hs, rfl⟩
          rw [evPlacedB_append, hnew, h2]
          rfl
        · exact hwait

/- The same invariant argument for the chordprobook.py variant, in the
   deferring mode (keep_order False); its keep-order branch does not keep
   the counter parity, so only this mode is covered. -/
theorem reorderOld_even_aux (p0 : Nat) :
    ∀ (old : List Song) (start : Nat) (new_order waiting : List Song),
      (p0 + sumPages new_order) % 2 = start % 2 →
      evPlacedB p0 new_order = true →
      (∀ s ∈ waiting, s.pages % 2 = 0) →
      evPlacedB p0 (reorderOld false start old new_order waiting) = true
  | [], start, new_order, waiting, hinv, hnew, hwait => by
    rw [reorderOld]
    by_cases hc : start % 2 = 1 ∧ waiting ≠ []
    · rw [if_pos hc]
      have hb : evPlacedB (p0 + sumPages new_order) [blankSongOld] = true := by
        rw [evPlacedB_cons]
        exact ⟨fun h => absurd h (by rw [blankSongOld_pages]; omega), rfl⟩
      have hw : evPlacedB (p0 + sumPages (new_order ++ [blankSongOld])) waiting = true := by
        apply evPlacedB_evens waiting _ hwait
        rw [sumPages_append, sumPages_cons, sumPages_nil, blankSongOld_pages]
        omega
      rw [evPlacedB_append, evPlacedB_append, hnew, hb, hw]
      rfl
    · rw [if_neg hc]
      rw [evPlacedB_append, hnew]
      rcases Decidable.not_and_iff_or_not.mp hc with h1 | h2
      · have hw : evPlacedB (p0 + sumPages new_order) waiting = true := by
          apply evPlacedB_evens waiting _ hwait
          omega
        rw [hw]
        rfl
      · rw [Decidable.not_not] at h2
        subst h2
        rfl
  | s :: old, start, new_order, waiting, hinv, hnew, hwait => by
    rw [reorderOld]
    by_cases h0 : start % 2 = 0
    · rw [if_pos h0]
      apply reorderOld_even_aux p0 old
      · rw [sumPages_append, sumPages_append, sumPages_cons, sumPages_nil]
        omega
      · have hw : evPlacedB (p0 + sumPages new_order) waiting = true := by
          apply evPlacedB_evens waiting _ hwait
          omega
        have hsp : evPlacedB (p0 + sumPages (new_order ++ waiting)) [s] = true := by
          rw [evPlacedB_cons]
          refine ⟨fun _ => ?_, rfl⟩
          have hwsum := sumPages_even waiting hwait
          rw [sumPages_append]
          omega
        rw [evPlacedB_append, evPlacedB_append, hnew, hw, hsp]
        rfl
      · intro x hx
        simp at hx
    · rw [if_neg h0]
      by_cases hs : s.pages % 2 = 0
      · rw [if_pos hs]
        rw [if_neg (by simp)]
        apply reorderOld_even_aux p0 old start new_order (waiting ++ [s])
          hinv hnew
        intro x hx
        rcases List.mem_append.mp hx with h1 | h1
        · exact hwait x h1
        · rw [List.mem_singleton.mp h1]
          exact hs
      · rw [if_neg hs]
        apply reorderOld_even_aux p0 old
        · rw [sumPages_append, sumPages_cons, sumPages_nil]
          omega
        · have h2 : evPlacedB (p0 + sumPages new_order) [s] = true := by
            rw [evPlacedB_cons]
            exact ⟨fun h => absurd h hs, rfl⟩
          rw [evPlacedB_append, hnew, h2]
          rfl
        · exact hwait

/- Multiset content of the non-blank part of the books-variant reorder
   output: only blanks are inserted, nothing is lost or duplicated. -/
theorem reorderBooks_mset (keep : Bool) :
    ∀ (old : List Song) (start : Nat) (new_order waiting : List Song),
      (↑(filterNB (reorderBooks keep start old new_order waiting)) : Multiset Song) =
        ↑(filterNB (new_order ++ waiting ++ old))
  | [], start, new_order, waiting => by
    rw [reorderBooks]
    by_cases hc : start % 2 = 1 ∧ waiting ≠ []
    · rw [if_pos hc]
      simp [filterNB, List.filter_append, blankSong_blank]
    · rw [if_neg hc]
      simp [filterNB, List.filter_append]
  | s :: old, start, new_order, waiting => by
    rw [reorderBooks]
    by_cases h0 : start % 2 = 0
    · rw [if_pos h0]
      rw [reorderBooks_mset keep old (start + sumPages waiting + s.pages)
        (new_order ++ waiting ++ [s]) []]
      simp [filterNB, List.filter_append]
    · rw [if_neg h0]
      by_cases hs : s.pages % 2 = 0
      · rw [if_pos hs]
        cases keep with
        | true =>
          rw [if_pos rfl]
          rw [reorderBooks_mset true old (start + 1) (new_order ++ [blankSong, s]) waiting]
          simp [filterNB, List.filter_append, List.filter_cons, blankSong_blank]
          by_cases hb : s.blank = true
          · simp [hb]
          · rw [Bool.not_eq_true] at hb
            simp [hb]
            exact List.Perm.append_left _ List.perm_middle.symm
        | false =>
          rw [if_neg (by simp)]
          rw [reorderBooks_mset false old start new_order (waiting ++ [s])]
          simp [filterNB, List.filter_append]
      · rw [if_neg hs]
        rw [reorderBooks_mset keep old (start + s.pages) (new_order ++ [s]) waiting]
        simp [filterNB, List.filter_append, List.filter_cons]
        by_cases hb : s.blank = true
        · simp [hb]
        · rw [Bool.not_eq_true] at hb
          simp [hb]
          exact List.Perm.append_left _ List.perm_middle.symm

/- Same content lemma for the chordprobook.py variant. -/
theorem reorderOld_mset (keep : Bool) :
    ∀ (old : List Song) (start : Nat) (new_order waiting : List Song),
      (↑(filterNB (reorderOld keep start old new_order waiting)) : Multiset Song) =
        ↑(filterNB (new_order ++ waiting ++ old))
  | [], start, new_order, waiting => by
    rw [reorderOld]
    by_cases hc : start % 2 = 1 ∧ waiting ≠ []
    · rw [if_pos hc]
      simp [filterNB, List.filter_append, blankSongOld_blank]
    · rw [if_neg hc]
      simp [filterNB, List.filter_append]
  | s :: old, start, new_order, waiting => by
    rw [reorderOld]
    by_cases h0 : start % 2 = 0
    · rw [if_pos h0]
      rw [reorderOld_mset keep old (start + sumPages waiting + s.pages)
        (new_order ++ waiting ++ [s]) []]
      simp [filterNB, List.filter_append]
    · rw [if_neg h0]
      by_cases hs : s.pages % 2 = 0
      · rw [if_pos hs]
        cases keep with
        | true =>
          rw [if_pos rfl]
          rw [reorderOld_mset true old start (new_order ++ [blankSongOld, s]) waiting]
          simp [filterNB, List.filter_append, List.filter_cons, blankSongOld_blank]
          by_cases hb : s.blank = true
          · simp [hb]
          · rw [Bool.not_eq_true] at hb
            simp [hb]
            exact List.Perm.append_left _ List.perm_middle.symm
        | false =>
          rw [if_neg (by simp)]
          rw [reorderOld_mset false old start new_order (waiting ++ [s])]
          simp [filterNB, List.filter_append]
      · rw [if_neg hs]
        rw [reorderOld_mset keep old (start + s.pages) (new_order ++ [s]) waiting]
        simp [filterNB, List.filter_append, List.filter_cons]
        by_cases hb : s.blank = true
        · simp [hb]
        · rw [Bool.not_eq_true] at hb
          simp [hb]
          exact List.Perm.append_left _ List.perm_middle.symm

/- In keep-order mode the waiting queue never grows, so the non-blank
   output of the books-variant reorder keeps the exact original order. -/
theorem reorderBooks_keep_filter :
    ∀ (old : List Song) (start : Nat) (new_order : List Song),
      filterNB (reorderBooks true start old new_order []) =
        filterNB (new_order ++ old)
  | [], start, new_order => by
    rw [reorderBooks]
    rw [if_neg (by simp)]
  | s :: old, start, new_order => by
    rw [reorderBooks]
    by_cases h0 : start % 2 = 0
    · rw [if_pos h0]
      rw [reorderBooks_keep_filter old (start + sumPages [] + s.pages)
        (new_order ++ [] ++ [s])]
      simp [filterNB, List.filter_append]
    · rw [if_neg h0]
      by_cases hs : s.pages % 2 = 0
      · rw [if_pos hs, if_pos rfl]
        rw [reorderBooks_keep_filter old (start + 1) (new_order ++ [blankSong, s])]
        simp [filterNB, List.filter_append, List.filter_cons, blankSong_blank]
      · rw [if_neg hs]
        rw [reorderBooks_keep_filter old (start + s.pages) (new_order ++ [s])]
        simp [filterNB, List.filter_append]

/- The same order-exactness for the chordprobook.py variant in keep-order
   mode. -/
theorem reorderOld_keep_filter :
    ∀ (old : List Song) (start : Nat) (new_order : List Song),
      filterNB (reorderOld true start old new_order []) =
        filterNB (new_order ++ old)
  | [], start, new_order => by
    rw [reorderOld]
    rw [if_neg (by simp)]
  | s :: old, start, new_order => by
    rw [reorderOld]
    by_cases h0 : start % 2 = 0
    · rw [if_pos h0]
      rw [reorderOld_keep_filter old (start + sumPages [] + s.pages)
        (new_order ++ [] ++ [s])]
      simp [filterNB, List.filter_append]
    · rw [if_neg h0]
      by_cases hs : s.pages % 2 = 0
      · rw [if_pos hs, if_pos rfl]
        rw [reorderOld_keep_filter old start (new_order ++ [blankSongOld, s])]
        simp [filterNB, List.filter_append, List.filter_cons, blankSongOld_blank]
      · rw [if_neg hs]
        rw [reorderOld_keep_filter old (start + s.pages) (new_order ++ [s])]
        simp [filterNB, List.filter_append]

/- Concrete songs for counterexamples and witnesses. -/
def songTwoA : Song := { dummySong with title := "A", pages := 2 }

def songTwoB : Song := { dummySong with title := "B", pages := 2 }

def songOneC : Song := { dummySong with title := "C", pages := 1 }

/-- C1 counterexample: the claim covers both reorder variants in both
keep-order modes, but the chordprobook.py variant with keep_order=True
does not advance the page counter after inserting a blank (lines 256-262),
so with start page 1 and two 2-page songs the output is
[blank, A, blank, B]: song B has an even page count and starts on page
1 + (1 + 2 + 1) = 5, which is odd. -/
theorem c1_counterexample :
    (∀ s ∈ [songTwoA, songTwoB], 1 ≤ s.pages) ∧
      evPlacedB 1 (reorderOld true 1 [songTwoA, songTwoB] [] []) = false := by
  constructor
  · decide
  · decide

/-- C1 amended: for every start page and every list of songs with page
counts at least 1, the books/__init__.py reorder (both keep-order modes)
and the chordprobook.py reorder in deferring mode (keep_order False) place
every song with an even page count so that it begins on an even page,
the start page of a song being the given start page plus the page counts
of all songs and blanks placed before it; the chordprobook.py variant
with keep_order True violates this (see the counterexample). -/
theorem c1_amended (keep : Bool) (start : Nat) (songs : List Song)
    (hp : ∀ s ∈ songs, 1 ≤ s.pages) :
    evPlacedB start (reorderBooks keep start songs [] []) = true ∧
      evPlacedB start (reorderOld false start songs [] []) = true := by
  constructor
  · apply reorderBooks_even_aux keep start songs start [] []
    · rw [sumPages_nil]
      omega
    · rfl
    · intro x hx
      exact absurd hx (List.not_mem_nil x)
  · apply reorderOld_even_aux start songs start [] []
    · rw [sumPages_nil]
      omega
    · rfl
    · intro x hx
      exact absurd hx (List.not_mem_nil x)

/-- Witness for C1 amended at start page 1 with songs of 2 and 1 pages. -/
theorem c1_amended_witness :
    evPlacedB 1 (reorderBooks false 1 [songTwoA, songOneC] [] []) = true ∧
      evPlacedB 1 (reorderOld false 1 [songTwoA, songOneC] [] []) = true :=
  c1_amended false 1 [songTwoA, songOneC] (by decide)

/-- C2 counterexample: with keep_order False, a 2-page song reached on an
odd page is deferred past later odd-page songs, so pagination reorders
real songs: for start page 1 and songs [A (2 pages), C (1 page)] the
books reorder outputs [C, A], and filtering blanks does not restore the
original order. -/
theorem c2_counterexample :
    filterNB (reorderBooks false 1 [songTwoA, songOneC] [] []) ≠
      [songTwoA, songOneC] := by
  decide

/-- C2 amended: for every start page and song list, in both reorder
variants, removing the blank-flagged songs from the output yields a
permutation of the non-blank input songs (no song is lost or duplicated);
with keep_order True the original relative order is restored exactly,
while with keep_order False even-page songs may be deferred past later
songs (see the counterexample). -/
theorem c2_amended (keep : Bool) (start : Nat) (songs : List Song) :
    (List.Perm (filterNB (reorderBooks keep start songs [] [])) (filterNB songs) ∧
      List.Perm (filterNB (reorderOld keep start songs [] [])) (filterNB songs)) ∧
    (keep = true →
      filterNB (reorderBooks keep start songs [] []) = filterNB songs ∧
      filterNB (reorderOld keep start songs [] []) = filterNB songs) := by
  constructor
  · constructor
    · apply Multiset.coe_eq_coe.mp
      have h := reorderBooks_mset keep songs start [] []
      simpa using h
    · apply Multiset.coe_eq_coe.mp
      have h := reorderOld_mset keep songs start [] []
      simpa using h
  · intro hk
    subst hk
    constructor
    · have h := reorderBooks_keep_filter songs start []
      simpa using h
    · have h := reorderOld_keep_filter songs start []
      simpa using h

/-- Witness for C2 amended in keep-order mode with a single 2-page song. -/
theorem c2_amended_witness :
    List.Perm (filterNB (reorderBooks true 1 [songTwoA] [] [])) (filterNB [songTwoA]) ∧
      filterNB (reorderOld true 1 [songTwoA] [] []) = filterNB [songTwoA] :=
  ⟨(c2_amended true 1 [songTwoA]).1.1, ((c2_amended true 1 [songTwoA]).2 rfl).2⟩

/- Entry count of the TOC sets loop: one entry per non-blank set. -/
theorem tocSetsFold_len : ∀ (sets : List Song) (es : List String) (pc : Nat),
    (tocSetsFold sets es pc).1.length =
      es.length + (sets.filter (fun s => !s.blank)).length
  | [], es, pc => by simp [tocSetsFold]
  | song :: rest, es, pc => by
    rw [tocSetsFold]
    cases hsb : song.blank with
    | true =>
      simp [hsb, List.filter_cons, tocSetsFold_len rest]
      all_goals omega
    | false =>
      simp [hsb, List.filter_cons, tocSetsFold_len rest]
      all_goals omega

/- Entry count of the TOC songs loop: one entry per non-blank song. -/
theorem tocSongsFold_len : ∀ (songs : List Song) (es : List String) (pc : Nat)
    (ss : List Song),
    (tocSongsFold songs es pc ss).1.length =
      es.length + (songs.filter (fun s => !s.blank)).length
  | [], es, pc, ss => by simp [tocSongsFold]
  | song :: rest, es, pc, ss => by
    rw [tocSongsFold]
    cases hsb : song.blank with
    | true =>
      simp [hsb, List.filter_cons, tocSongsFold_len rest]
      all_goals omega
    | false =>
      simp [hsb, List.filter_cons, tocSongsFold_len rest]
      all_goals omega

/- Sum of slice lengths of the index-based chunking, for any chunk
   size. -/
theorem chunkSum {α : Type} : ∀ (n cs : Nat) (l : List α),
    ((List.range n).map (fun i => ((l.drop (i * cs)).take cs).length)).sum =
      min l.length (n * cs)
  | 0, cs, l => by simp
  | m + 1, cs, l => by
    rw [List.range_succ, List.map_append, List.sum_append]
    rw [chunkSum m cs l]
    simp only [List.map_cons, List.map_nil, List.sum_cons, List.sum_nil]
    have h1 : ((l.drop (m * cs)).take cs).length = min cs (l.length - m * cs) := by
      simp [List.length_take, List.length_drop]
    rw [h1]
    have h2 : (m + 1) * cs = m * cs + cs := by ring
    rw [h2]
    generalize m * cs = A
    omega

/- `chunked` never loses or duplicates an entry: the slice lengths sum to
   the input length (for a positive number of chunks). -/
theorem chunked_sum {α : Type} (l : List α) (n : Nat) (h : 1 ≤ n) :
    ((chunked l n).map List.length).sum = l.length := by
  unfold chunked
  rw [List.map_map]
  have hs := chunkSum n ((l.length + n - 1) / n) l
  have hcomp : (List.length ∘ fun i => (l.drop (i * ((l.length + n - 1) / n))).take
      ((l.length + n - 1) / n)) =
      fun i => ((l.drop (i * ((l.length + n - 1) / n))).take ((l.length + n - 1) / n)).length := by
    funext i
    rfl
  rw [hcomp, hs]
  have hbound : l.length ≤ n * ((l.length + n - 1) / n) := by
    have hd := Nat.div_add_mod (l.length + n - 1) n
    have hm : (l.length + n - 1) % n < n := Nat.mod_lt _ (by omega)
    generalize hq : (l.length + n - 1) / n = q at hd ⊢
    generalize hr : (l.length + n - 1) % n = r at hd hm
    generalize hA : n * q = A at hd ⊢
    omega
  exact Nat.min_eq_left hbound

/-- C8: for every book (any numbers of songs and sets) and start page,
the total number of entries produced by TOC.__init__ (summed over its
contents pages) equals the count of non-blank sets plus the count of
non-blank songs. -/
theorem c8_toc_entry_count (book : Book) (start_page : Nat) :
    (((TOC_init book start_page).1.pages).map List.length).sum =
      (book.sets.filter (fun s => !s.blank)).length +
        (book.songs.filter (fun s => !s.blank)).length := by
  unfold TOC_init
  dsimp only
  set ne := book.sets.length + (book.songs.filter (fun s => !s.blank)).length with hne
  by_cases hbig : ne > maxSongsPerPage
  · rw [if_pos hbig, if_pos hbig]
    have htarget : 1 ≤ (ne + (idealSongsPerPage - 1)) / idealSongsPerPage := by
      unfold maxSongsPerPage at hbig
      unfold idealSongsPerPage
      omega
    rw [chunked_sum _ _ htarget]
    rw [List.length_append, tocSetsFold_len, tocSongsFold_len]
    by_cases hguard : book.sets.length > 0 ∧
        ((ne + (idealSongsPerPage - 1)) / idealSongsPerPage + book.sets.length) % 2 = 0
    · rw [if_pos hguard]
      simp [List.filter_cons, blankSong_blank]
    · rw [if_neg hguard]
      simp
  · rw [if_neg hbig, if_neg hbig]
    simp only [List.map_cons, List.map_nil, List.sum_cons, List.sum_nil]
    rw [List.length_append, tocSetsFold_len, tocSongsFold_len]
    by_cases hguard : book.sets.length > 0 ∧ (1 + book.sets.length) % 2 = 0
    · rw [if_pos hguard]
      simp [List.filter_cons, blankSong_blank]
    · rw [if_neg hguard]
      simp

/- One parse step increments the page count exactly on new_page
   directive lines. -/
theorem parseLine_pages (s : Song) (st : ParseSt) (l : List Char)
    (s2 : Song) (st2 : ParseSt) (h : parseLine s st l = Except.ok (s2, st2)) :
    s2.pages = s.pages +
      (if (mkDirective ⟨l⟩).type = some DirType.new_page then 1 else 0) := by
  unfold parseLine at h
  revert h
  cases hdir : (mkDirective ⟨l⟩).type with
  | none =>
    intro h
    dsimp only at h
    repeat' split at h
    all_goals (cases h <;> simp)
  | some t =>
    cases t <;>
      (intro h
       dsimp only at h
       repeat' split at h
       all_goals (cases h <;> simp))

/- The parse loop adds one page per new_page line. -/
theorem parseLines_pages : ∀ (lines : List (List Char)) (s : Song) (st : ParseSt)
    (s2 : Song) (st2 : ParseSt),
    parseLines s st lines = Except.ok (s2, st2) →
    s2.pages = s.pages + (lines.filter
      (fun l => (mkDirective ⟨l⟩).type = some DirType.new_page)).length
  | [], s, st, s2, st2, h => by
    rw [parseLines] at h
    cases h
    simp
  | l :: rest, s, st, s2, st2, h => by
    rw [parseLines] at h
    cases hstep : parseLine s st l with
    | error e =>
      rw [hstep] at h
      cases h
    | ok p =>
      obtain ⟨ps, pst⟩ := p
      rw [hstep] at h
      dsimp only at h
      have h1 := parseLine_pages s st l ps pst hstep
      have h2 := parseLines_pages rest ps pst s2 st2 h
      rw [List.filter_cons]
      by_cases hc : (mkDirective ⟨l⟩).type = some DirType.new_page
      · rw [if_pos hc] at h1
        rw [if_pos (by simpa using hc), List.length_cons]
        omega
      · rw [if_neg hc] at h1
        rw [if_neg (by simpa using hc)]
        omega

/- The constructed song's page count is one plus the number of new_page
   directive lines in its text. -/
theorem cp_song_new_pages (text title : String) (tr : Int) (bl : Bool) (s : Song)
    (h : cp_song_new text title tr bl = Except.ok s) : s.pages = 1 + countNP text := by
  unfold cp_song_new at h
  cases hsp : songParse (cp_song_init text tr bl) with
  | error e =>
    rw [hsp] at h
    cases h
  | ok s1 =>
    rw [hsp] at h
    dsimp only at h
    have hpp : s1.pages = (cp_song_init text tr bl).pages + countNP text := by
      unfold songParse at hsp
      cases hpl : parseLines (cp_song_init text tr bl) parseInitSt
          (splitNL (cp_song_init text tr bl).text.data) with
      | error e =>
        rw [hpl] at hsp
        cases hsp
      | ok p =>
        obtain ⟨ps, pst⟩ := p
        rw [hpl] at hsp
        dsimp only at hsp
        cases hsp
        have hres := parseLines_pages _ _ _ _ _ hpl
        rw [countNP]
        exact hres
    have hinit : (cp_song_init text tr bl).pages = 1 := rfl
    split at h
    · cases h
      simp only [hpp, hinit]
    · cases h
      omega

/- `format` always leaves exactly one page, whatever was accumulated
   before. -/
theorem songFormat_pages (s : Song) (t : Option Int) (i : Option String) (sa : Bool) :
    (songFormat s t i sa).pages = 1 := by
  unfold songFormat get_key_string
  dsimp only
  repeat' split
  all_goals rfl

/- `format` does not read the previous chords_used value: its result is
   the same for any prior value of that field. -/
set_option maxHeartbeats 2000000 in
theorem songFormat_chords_independent (s : Song) (c : List String) (t : Option Int)
    (i : Option String) (sa : Bool) :
    songFormat { s with chords_used := c } t i sa = songFormat s t i sa := by
  unfold songFormat get_key_string
  cases t <;> cases i <;> cases hsi : s.instrument_name <;>
    (dsimp only
     try simp only [hsi]
     first
       | (split_ifs <;> rfl)
       | rfl)

/- A song used by the book formatter for pagination. -/
def npSong : Song :=
  match cp_song_new "\x7bnew_page\x7d" "T" 0 false with
  | Except.ok s => s
  | Except.error _ => dummySong

/-- C10: cp_song.format unconditionally resets the pages attribute to 1
and discards the chords_used list accumulated before (the parse pass had
set pages to 1 plus the number of new_page directive lines);
consequently cp_song_book.format, which formats every song immediately
before calling reorder, runs pagination with every song's page count
equal to 1. -/
theorem c10_format_resets :
    (∀ (text title : String) (tr : Int) (bl : Bool) (s : Song),
        cp_song_new text title tr bl = Except.ok s → s.pages = 1 + countNP text) ∧
    (∀ (s : Song) (t : Option Int) (i : Option String) (sa : Bool),
        (songFormat s t i sa).pages = 1) ∧
    (∀ (s : Song) (c : List String) (t : Option Int) (i : Option String) (sa : Bool),
        songFormat { s with chords_used := c } t i sa = songFormat s t i sa) ∧
    (∀ (b : Book) (inst : Option String) (s : Song),
        s ∈ b.songs.map (fun x => songFormat x none inst false) → s.pages = 1) := by
  refine ⟨cp_song_new_pages, songFormat_pages, songFormat_chords_independent, ?_⟩
  intro b inst s hs
  obtain ⟨x, _, hx⟩ := List.mem_map.mp hs
  rw [← hx]
  exact songFormat_pages x none inst false

/-- Witness for C10: the song built from a lone new_page directive has 2
pages after parse and 1 page after format. -/
theorem c10_format_resets_witness :
    npSong.pages = 1 + countNP "\x7bnew_page\x7d" ∧
      (songFormat npSong none none true).pages = 1 :=
  ⟨c10_format_resets.1 "\x7bnew_page\x7d" "T" 0 false npSong rfl,
    c10_format_resets.2.1 npSong none none true⟩

/- A successful first-match search returns the first matching song. -/
theorem findFirstMatch_spec (segs : List (List Char)) :
    ∀ (songs : List Song) (s : Song), findFirstMatch segs songs = some s →
      ∃ pre post, songs = pre ++ s :: post ∧
        (∀ x ∈ pre, segsSearch segs (pyLower x.title).data = false) ∧
        segsSearch segs (pyLower s.title).data = true
  | [], s, h => by simp [findFirstMatch] at h
  | x :: rest, s, h => by
    rw [findFirstMatch] at h
    by_cases hx : segsSearch segs (pyLower x.title).data = true
    · rw [if_pos hx] at h
      cases h
      exact ⟨[], rest, rfl, by simp, hx⟩
    · rw [if_neg hx] at h
      obtain ⟨pre, post, hdec, hpre, hs⟩ := findFirstMatch_spec segs rest s h
      refine ⟨x :: pre, post, by rw [hdec]; rfl, ?_, hs⟩
      intro y hy
      rcases List.mem_cons.mp hy with h1 | h1
      · rw [h1]
        exact Bool.not_eq_true _ ▸ (by simpa using hx)
      · exact hpre y h1

/-- C6 counterexample: the claim says internal spaces of a song reference
are treated as match-anything wildcards, so "## amazing grace" would
match a song titled "Amazing Holy Grace"; the books code (line 826) only
replaces the literal two-character sequence space-plus with ".*?", so the
space stays literal, nothing matches, and the not-found placeholder is
appended instead of a clone of the song. -/
theorem c6_counterexample :
    (order_by_setlist bookAHG "# S\n## amazing grace").map
        (fun b => b.songs.map (fun s => s.title)) =
      Except.ok ["amazing grace (not found)"] := by
  rfl

/-- C6 amended: in cp_song_book.order_by_setlist a song reference line
(starting with "## ") is matched case-insensitively as a substring search
against the song titles, with the literal sequence space-plus (not every
space) treated as a match-anything wildcard; the first matching song wins
(general first conjunct) and is appended as an independent copy of the
stored song with the set annotations applied (the three concrete runs:
"## amazing grace" matches the first of two songs containing that exact
substring; "## holy +night" matches "Holy Silent Night" through the
wildcard; two references to the same song in two sets produce two
independently titled occurrences). -/
theorem c6_amended :
    (∀ (segs : List (List Char)) (songs : List Song) (s : Song),
        findFirstMatch segs songs = some s →
        ∃ pre post, songs = pre ++ s :: post ∧
          (∀ x ∈ pre, segsSearch segs (pyLower x.title).data = false) ∧
          segsSearch segs (pyLower s.title).data = true) ∧
    (order_by_setlist bookAG "# S\n## amazing grace").map
        (fun b => (b.songs.map (fun s => s.title), b.sets.map (fun s => s.title))) =
      Except.ok (["Amazing Grace (Traditional) \x7bStart of S\x7d"], ["S"]) ∧
    (order_by_setlist bookHSN "# S\n## holy +night").map
        (fun b => b.songs.map (fun s => s.title)) =
      Except.ok ["Holy Silent Night \x7bStart of S\x7d"] ∧
    (order_by_setlist bookAG "# S1\n## amazing grace\n# S2\n## amazing grace").map
        (fun b => b.songs.map (fun s => s.title)) =
      Except.ok ["Amazing Grace (Traditional) \x7bStart of S1\x7d \x7bEnd of S1\x7d",
        "Amazing Grace (Traditional) \x7bStart of S2\x7d"] :=
  ⟨findFirstMatch_spec, by rfl, by rfl, by rfl⟩

/-- Witness for C6 amended: the general first-match property applied to
the concrete two-song book and the reference "amazing grace". -/
theorem c6_amended_witness :
    ∃ pre post, bookAG.songs = pre ++ mkTitleSong "Amazing Grace (Traditional)" :: post ∧
      (∀ x ∈ pre,
        segsSearch (setlistSegs "amazing grace") (pyLower x.title).data = false) ∧
      segsSearch (setlistSegs "amazing grace")
        (pyLower (mkTitleSong "Amazing Grace (Traditional)").title).data = true :=
  c6_amended.1 (setlistSegs "amazing grace") bookAG.songs
    (mkTitleSong "Amazing Grace (Traditional)") (by rfl)

/- The title/version directive update of a setlist line changes no other
   state component. -/
theorem setlistDirUpdate_parts (st : SetlistSt) (line : String) :
    (setlistDirUpdate st line).done_order = st.done_order ∧
    (setlistDirUpdate st line).current_song = st.current_song ∧
    (setlistDirUpdate st line).done_sets = st.done_sets ∧
    (setlistDirUpdate st line).current_set = st.current_set ∧
    (setlistDirUpdate st line).new_set = st.new_set := by
  unfold setlistDirUpdate
  split
  · split <;> simp
  · simp

/-- C7 counterexample: an unmatched reference IS fatal when no set
heading precedes it: `current_set.text += ...` (line 855) dereferences
None and raises AttributeError, so order_by_setlist fails instead of
continuing. -/
theorem c7_counterexample :
    order_by_setlist emptyBook "## nosuch" = Except.error PyErr.attributeError := by
  rfl

/-- C7 amended: for every song reference that matches no song title,
provided a set heading precedes it (current_set is not None),
order_by_setlist appends a placeholder blank-bodied song titled
"name (not found)" and continues with the remaining references (general
first conjunct, stated on the line processor; concrete second conjunct
shows a later reference still being processed); without a preceding set
heading the reference is fatal (see the counterexample). -/
theorem c7_amended :
    (∀ (songs : List Song) (st : SetlistSt) (line : String) (sn1 : String)
        (tr0 : List Int) (placeholder cset : Song),
      pyStartsWith (⟨collapseWS line.data⟩ : String) "# " = false →
      pyStartsWith (⟨collapseWS line.data⟩ : String) "## " = true →
      extract_transposition
        (pyStrip (pyReplace ⟨collapseWS line.data⟩ "## " "")) = Except.ok (sn1, tr0) →
      findFirstMatch (setlistSegs (pyStrip sn1)) songs = none →
      cp_song_new ("\x7btitle: " ++ pyStrip sn1 ++ " (not found)\x7d") "Song" 0 false =
        Except.ok placeholder →
      st.current_set = some cset →
      setlistLine songs st line = Except.ok { setlistDirUpdate st line with
        done_order := st.done_order ++ st.current_song.toList,
        current_song := some placeholder,
        current_set := some { cset with
          text := cset.text ++ "## " ++ pyStrip sn1 ++ " (NO CHART)\n" } }) ∧
    (order_by_setlist bookAG "# S\n## nosuch\n## amazing grace").map
        (fun b => b.songs.map (fun s => (s.title, s.text))) =
      Except.ok [("nosuch (not found)", ""),
        ("Amazing Grace (Traditional) \x7bStart of S\x7d", "")] := by
  constructor
  · intro songs st line sn1 tr0 placeholder cset h1 h2 h3 h4 h5 hset
    obtain ⟨hdo, hcs, hds, hcset, hns⟩ := setlistDirUpdate_parts st line
    unfold setlistLine
    dsimp only
    rw [if_neg (by simp [h1]), if_pos (by simp [h2]), h3]
    dsimp only
    rw [h4, h5, hcset, hset, hdo, hcs]
  · rfl

/-- Witness for C7 amended: the general placeholder property applied to
the single unmatched reference "## nosuch" on the two-song book, with
every side condition discharged by computation. -/
theorem c7_amended_witness :
    setlistLine bookAG.songs witnessSt "## nosuch" = Except.ok
      { setlistDirUpdate witnessSt "## nosuch" with
        done_order := witnessSt.done_order ++ witnessSt.current_song.toList,
        current_song := some npPlaceholder,
        current_set := some { mkTitleSong "S" with
          text := (mkTitleSong "S").text ++ "## " ++ pyStrip "nosuch" ++ " (NO CHART)\n" } } :=
  c7_amended.1 bookAG.songs witnessSt "## nosuch" "nosuch" [0] npPlaceholder
    (mkTitleSong "S") (by rfl) (by rfl) (by rfl) (by rfl) (by rfl) (by rfl)
